import Mathlib

/-!
# Window-function descriptors (`pkg/expression/aggregation/window_func.go`)

A shallow embedding of the window-function descriptor code: descriptor
construction with its argument legality checks and return-type nullability
rule, the frame policy lookups, the TiFlash push-down decision, the conversion
to the wire expression and `Clone`; and of the label lists built by the
CPU-load mock of `pkg/util/cpuprofile/testutil/util.go`.

Conventions of the embedding

* A Go call either returns or panics; `Outcome` records which.  The two panics
  that the embedded code can raise itself are an index out of range on `args`
  and a method call through a nil `*types.FieldType`.
* Go pointers that may be nil are `Option`s (`none` is `nil`); a Go `error` is
  an `Option Err`.
* Collaborators declared outside this file (the constant extractor, the generic
  base construction, the type of an expression, the push-down check on
  expressions, the rune map of `strings.ToLower`) are parameters.
* `uint` is a 64-bit word, held in a `Nat`.
-/

namespace Aggregation

/-! ## Vocabulary: function names (`ast`) and flags (`mysql`)

The name constants of package `ast` are declared outside the embedded files;
their values are the lowercase SQL function names.
-/

/-- Constant `ast.WindowFuncRowNumber`. -/
def WindowFuncRowNumber : String := "row_number"
/-- Constant `ast.WindowFuncRank`. -/
def WindowFuncRank : String := "rank"
/-- Constant `ast.WindowFuncDenseRank`. -/
def WindowFuncDenseRank : String := "dense_rank"
/-- Constant `ast.WindowFuncCumeDist`. -/
def WindowFuncCumeDist : String := "cume_dist"
/-- Constant `ast.WindowFuncPercentRank`. -/
def WindowFuncPercentRank : String := "percent_rank"
/-- Constant `ast.WindowFuncNtile`. -/
def WindowFuncNtile : String := "ntile"
/-- Constant `ast.WindowFuncLead`. -/
def WindowFuncLead : String := "lead"
/-- Constant `ast.WindowFuncLag`. -/
def WindowFuncLag : String := "lag"
/-- Constant `ast.WindowFuncFirstValue`. -/
def WindowFuncFirstValue : String := "first_value"
/-- Constant `ast.WindowFuncLastValue`. -/
def WindowFuncLastValue : String := "last_value"
/-- Constant `ast.WindowFuncNthValue`. -/
def WindowFuncNthValue : String := "nth_value"
/-- Constant `ast.AggFuncCount`. -/
def AggFuncCount : String := "count"
/-- Constant `ast.AggFuncSum`. -/
def AggFuncSum : String := "sum"
/-- Constant `ast.AggFuncAvg`. -/
def AggFuncAvg : String := "avg"
/-- Constant `ast.AggFuncMax`. -/
def AggFuncMax : String := "max"
/-- Constant `ast.AggFuncMin`. -/
def AggFuncMin : String := "min"
/-- Constant `ast.AggFuncApproxCountDistinct`. -/
def AggFuncApproxCountDistinct : String := "approx_count_distinct"
/-- Constant `ast.AggFuncBitAnd`. -/
def AggFuncBitAnd : String := "bit_and"
/-- Constant `ast.AggFuncBitOr`. -/
def AggFuncBitOr : String := "bit_or"
/-- Constant `ast.AggFuncBitXor`. -/
def AggFuncBitXor : String := "bit_xor"

/-- Modelled from the spec: the constant `mysql.NotNullFlag` is declared
outside the embedded files; it is the "not nullable" flag of a return type,
bit 0 of the flag word. -/
def NotNullFlag : Nat := 1

/-- Largest value of a Go `uint` (64 bits). -/
def maxUint : Nat := 2 ^ 64 - 1

/-! ## Go run-time outcome -/

/-- The run-time panics the embedded code can raise. -/
inductive GoPanic where
  | indexOutOfRange
  | nilDereference
  deriving DecidableEq

/-- A Go call panics or returns a value. -/
inductive Outcome (α : Type) where
  | panic (p : GoPanic)
  | ret (a : α)
  deriving DecidableEq

/-! ## `strings.ToLower` -/

/-- Go `strings.ToLower` on a valid UTF-8 string: every rune is sent through
`unicode.ToLower`, here the parameter `lower`. -/
def ToLower (lower : Char → Char) (s : String) : String :=
  String.mk (s.data.map lower)

/-- The rune map `unicode.ToLower` restricted to what an ASCII string needs:
`A`..`Z` go to `a`..`z`, every other rune is left alone. -/
def asciiLower (c : Char) : Char :=
  if 65 ≤ c.toNat ∧ c.toNat ≤ 90 then Char.ofNat (c.toNat + 32) else c

/-! ## Field types (`types.FieldType`) -/

/-- Modelled from the spec: the record `types.FieldType` is declared outside
the embedded files; it is the semantic type including a nullability flag: the
type byte, the flag word and the remaining attributes.  It is held by value,
so two pointers to one `FieldType` are not tracked. -/
structure FieldType where
  tp : Nat
  flag : Nat
  flen : Int
  decimal : Int
  charset : String
  collate : String
  deriving DecidableEq

/-- Modelled from the spec: method `FieldType.GetFlag`, declared outside the
embedded files, reads the flag word. -/
def FieldType.GetFlag (ft : FieldType) : Nat := ft.flag

/-- Modelled from the spec: method `FieldType.SetFlag`, declared outside the
embedded files.  With `mysql.NotNullFlag` it forces not-nullable to true; the
spec has the descriptor immutable except for the nullability flag, so the bits
of `flag` are set in the flag word and nothing else of the type changes. -/
def FieldType.SetFlag (ft : FieldType) (flag : Nat) : FieldType :=
  { ft with flag := ft.flag ||| flag }

/-- Modelled from the spec: method `FieldType.DelFlag`, declared outside the
embedded files.  With `mysql.NotNullFlag` it forces not-nullable to false:
`ft.flag &= ^flag` on a 64-bit word. -/
def FieldType.DelFlag (ft : FieldType) (flag : Nat) : FieldType :=
  { ft with flag := ft.flag &&& (maxUint ^^^ flag) }

/-- The test `(tp.GetFlag() & mysql.NotNullFlag) != 0`. -/
def FieldType.hasNotNull (ft : FieldType) : Bool :=
  (ft.GetFlag &&& NotNullFlag) != 0

/-! ## Descriptors -/

/-- Modelled from the spec: the struct `baseFuncDesc` is declared outside the
embedded files; it holds the name, the ordered arguments and the return type of
a descriptor.  `RetTp` is a pointer `*types.FieldType`, `none` when nil, as it
is until type inference assigns it. -/
structure baseFuncDesc (Expression : Type) where
  Name : String
  Args : List Expression
  RetTp : Option FieldType
  deriving DecidableEq

/-- The struct `WindowFuncDesc`, which embeds `baseFuncDesc`. -/
structure WindowFuncDesc (Expression : Type) extends baseFuncDesc Expression
  deriving DecidableEq

/-- Collaborators of `NewWindowFuncDesc` that live in other packages or files:
`ctx.GetEvalCtx`, `expression.GetUint64FromConstant` (value, isNull, ok),
`Expression.GetType` and `newBaseFuncDesc`. -/
structure Collab (BuildContext EvalContext Expression Err : Type) where
  GetEvalCtx : BuildContext → EvalContext
  GetUint64FromConstant : EvalContext → Expression → Nat × Bool × Bool
  GetType : Expression → EvalContext → FieldType
  newBaseFuncDesc : BuildContext → String → List Expression →
    baseFuncDesc Expression × Option Err

section Construction

variable {BuildContext EvalContext Expression Err : Type}

/-- Lines 35-58 of `NewWindowFuncDesc` when `skipCheckArgs` is false: the
`switch strings.ToLower(name)`.  The result `true` stands for the
`return nil, nil` of a failed check, `false` for falling out of the switch. -/
def checkArgs (lower : Char → Char) (E : Collab BuildContext EvalContext Expression Err)
    (ctx : BuildContext) (name : String) (args : List Expression) : Outcome Bool :=
  let lname := ToLower lower name
  if lname = WindowFuncNthValue then
    match args[1]? with
    | none => Outcome.panic GoPanic.indexOutOfRange
    | some arg =>
      match E.GetUint64FromConstant (E.GetEvalCtx ctx) arg with
      | (val, isNull, ok) => Outcome.ret (!ok || (val == 0 && !isNull))
  else if lname = WindowFuncNtile then
    match args[0]? with
    | none => Outcome.panic GoPanic.indexOutOfRange
    | some arg =>
      match E.GetUint64FromConstant (E.GetEvalCtx ctx) arg with
      | (val, isNull, ok) => Outcome.ret (!ok || (val == 0 && !isNull))
  else if lname = WindowFuncLead ∨ lname = WindowFuncLag then
    if args.length < 2 then Outcome.ret false
    else
      match args[1]? with
      | none => Outcome.panic GoPanic.indexOutOfRange
      | some arg =>
        match E.GetUint64FromConstant (E.GetEvalCtx ctx) arg with
        | (_, isNull, ok) => Outcome.ret (!ok || isNull)
  else Outcome.ret false

/-- The statement `base.RetTp.SetFlag(mysql.NotNullFlag)`: a nil `RetTp`
panics. -/
def setNotNull (base : baseFuncDesc Expression) : Outcome (baseFuncDesc Expression) :=
  match base.RetTp with
  | none => Outcome.panic GoPanic.nilDereference
  | some ft => Outcome.ret { base with RetTp := some (ft.SetFlag NotNullFlag) }

/-- The statement `base.RetTp.DelFlag(mysql.NotNullFlag)`: a nil `RetTp`
panics. -/
def delNotNull (base : baseFuncDesc Expression) : Outcome (baseFuncDesc Expression) :=
  match base.RetTp with
  | none => Outcome.panic GoPanic.nilDereference
  | some ft => Outcome.ret { base with RetTp := some (ft.DelFlag NotNullFlag) }

/-- The names of the first case of the nullability switch (lines 64-65). -/
def notNullFuncs : List String :=
  [WindowFuncRowNumber, WindowFuncRank, WindowFuncDenseRank, WindowFuncCumeDist,
   WindowFuncPercentRank, AggFuncCount, AggFuncApproxCountDistinct, AggFuncBitAnd,
   AggFuncBitOr, AggFuncBitXor]

/-- Lines 63-77 of `NewWindowFuncDesc`: the `switch name` that sets or clears
the not-null flag of `base.RetTp`.  The condition of line 68 is evaluated left
to right and short-circuits. -/
def resolveNullability (E : Collab BuildContext EvalContext Expression Err)
    (ctx : BuildContext) (name : String) (args : List Expression)
    (base : baseFuncDesc Expression) : Outcome (baseFuncDesc Expression) :=
  if name ∈ notNullFuncs then setNotNull base
  else if name = WindowFuncLead ∨ name = WindowFuncLag then
    if args.length = 3 then
      match args[0]? with
      | none => Outcome.panic GoPanic.indexOutOfRange
      | some a0 =>
        if (E.GetType a0 (E.GetEvalCtx ctx)).hasNotNull then
          match args[2]? with
          | none => Outcome.panic GoPanic.indexOutOfRange
          | some a2 =>
            if (E.GetType a2 (E.GetEvalCtx ctx)).hasNotNull then setNotNull base
            else delNotNull base
        else delNotNull base
    else delNotNull base
  else delNotNull base

/-- Function `NewWindowFuncDesc`.  The returned pair is the Go pair
`(*WindowFuncDesc, error)`. -/
def NewWindowFuncDesc (lower : Char → Char)
    (E : Collab BuildContext EvalContext Expression Err)
    (ctx : BuildContext) (name : String) (args : List Expression)
    (skipCheckArgs : Bool) :
    Outcome (Option (WindowFuncDesc Expression) × Option Err) :=
  match (if skipCheckArgs then Outcome.ret false else checkArgs lower E ctx name args) with
  | Outcome.panic p => Outcome.panic p
  | Outcome.ret true => Outcome.ret (none, none)
  | Outcome.ret false =>
    match E.newBaseFuncDesc ctx name args with
    | (base, err) =>
      match resolveNullability E ctx name args base with
      | Outcome.panic p => Outcome.panic p
      | Outcome.ret base1 =>
        match err with
        | some e => Outcome.ret (none, some e)
        | none => Outcome.ret (some { tobaseFuncDesc := base1 }, none)

end Construction

/-! ## Frame policy -/

/-- The keys of the map `noFrameWindowFuncs`. -/
def noFrameWindowFuncs : List String :=
  [WindowFuncCumeDist, WindowFuncDenseRank, WindowFuncLag, WindowFuncLead,
   WindowFuncNtile, WindowFuncPercentRank, WindowFuncRank, WindowFuncRowNumber]

/-- Function `NeedFrame`: `_, ok := noFrameWindowFuncs[strings.ToLower(name)]`,
then `!ok`. -/
def NeedFrame (lower : Char → Char) (name : String) : Bool :=
  !decide (ToLower lower name ∈ noFrameWindowFuncs)

/-- Modelled from the spec: the frame types of `ast.FrameType`, declared
outside the embedded files (rows-based, range-based, groups); `Rows` is the
first constant of the enumeration, the zero value of the type. -/
inductive FrameType where
  | Rows
  | Ranges
  | Groups
  deriving DecidableEq

/-- Modelled from the spec: the bound types of `ast.BoundType`, declared
outside the embedded files; `Following` is the first constant of the
enumeration, the zero value of the type. -/
inductive BoundType where
  | Following
  | Preceding
  | CurrentRow
  deriving DecidableEq

/-- Modelled from the spec: the struct `ast.FrameBound`, declared outside the
embedded files: the bound type (field `Type`), the unbounded mark, the offset
expression (`none` when nil) and its time unit. -/
structure FrameBound where
  Tp : BoundType
  UnBounded : Bool
  Expr : Option Nat
  Unit : Nat
  deriving DecidableEq

/-- Modelled from the spec: the struct `ast.FrameExtent`, a start bound and an
end bound. -/
structure FrameExtent where
  Start : FrameBound
  End : FrameBound
  deriving DecidableEq

/-- Modelled from the spec: the struct `ast.FrameClause`, declared outside the
embedded files: the frame type (field `Type`) and the extent. -/
structure FrameClause where
  Tp : FrameType
  Extent : FrameExtent
  deriving DecidableEq

/-- The zero value of `ast.FrameBound`. -/
def FrameBound.zero : FrameBound :=
  { Tp := BoundType.Following, UnBounded := false, Expr := none, Unit := 0 }

/-- The zero value of `ast.FrameClause`, what a Go map lookup yields for a
missing key. -/
def FrameClause.zero : FrameClause :=
  { Tp := FrameType.Rows, Extent := { Start := FrameBound.zero, End := FrameBound.zero } }

/-- The map `useDefaultFrameWindowFuncs`, as its list of entries. -/
def useDefaultFrameWindowFuncs : List (String × FrameClause) :=
  [(WindowFuncRowNumber,
    { Tp := FrameType.Rows,
      Extent := { Start := { FrameBound.zero with Tp := BoundType.CurrentRow },
                  End := { FrameBound.zero with Tp := BoundType.CurrentRow } } })]

/-- Function `UseDefaultFrame`:
`frame, ok := useDefaultFrameWindowFuncs[strings.ToLower(name)]`, then
`ok, frame`. -/
def UseDefaultFrame (lower : Char → Char) (name : String) : Bool × FrameClause :=
  match useDefaultFrameWindowFuncs.lookup (ToLower lower name) with
  | some frame => (true, frame)
  | none => (false, FrameClause.zero)

/-! ## Push-down to TiFlash -/

/-- The store types of `kv.StoreType`. -/
inductive StoreType where
  | TiKV
  | TiFlash
  | TiDB
  deriving DecidableEq

/-- Method `WindowFuncDesc.CanPushDownToTiFlash`; `CanExprsPushDown` is
`expression.CanExprsPushDown`. -/
def CanPushDownToTiFlash {PushDownContext Expression : Type}
    (CanExprsPushDown : PushDownContext → List Expression → StoreType → Bool)
    (s : WindowFuncDesc Expression) (ctx : PushDownContext) : Bool :=
  if !CanExprsPushDown ctx s.Args StoreType.TiFlash then false
  else if s.Name ∈ [WindowFuncRowNumber, WindowFuncRank, WindowFuncDenseRank,
      WindowFuncLead, WindowFuncLag, WindowFuncFirstValue, WindowFuncLastValue] then true
  else if s.Name ∈ [AggFuncSum, AggFuncCount, AggFuncAvg, AggFuncMax, AggFuncMin] then true
  else false

/-! ## Conversion to the wire expression -/

/-- Modelled from the spec: the wire expression node `tipb.Expr`, declared
outside the embedded files, with the three fields `WindowFuncToPBExpr` writes:
the type tag, the children and the field type.  `F` is the type of the values
of `*tipb.FieldType`. -/
inductive tipb.Expr (F : Type) where
  | mk (Tp : Int) (Children : List (tipb.Expr F)) (FieldType : F)

/-- Field `Tp` of a `tipb.Expr`. -/
def tipb.Expr.Tp {F : Type} : tipb.Expr F → Int
  | tipb.Expr.mk tp _ _ => tp

/-- Field `Children` of a `tipb.Expr`. -/
def tipb.Expr.Children {F : Type} : tipb.Expr F → List (tipb.Expr F)
  | tipb.Expr.mk _ children _ => children

/-- Field `FieldType` of a `tipb.Expr`. -/
def tipb.Expr.FieldType {F : Type} : tipb.Expr F → F
  | tipb.Expr.mk _ _ ft => ft

/-- Modelled from the spec: the constant `kv.ReqTypeSelect`, declared outside
the embedded files, is the select request class. -/
def ReqTypeSelect : Int := 101

/-- Collaborators of `WindowFuncToPBExpr` that live in other packages or
files: `desc.GetTiPBExpr`, `client.IsRequestTypeSupported`, the converter
`expression.NewPBConverter(client, sctx).ExprToPB` (`none` is a nil result) and
`expression.ToPBFieldType`, which may panic. -/
structure PBCollab (EvalContext Client Expression F : Type) where
  GetTiPBExpr : baseFuncDesc Expression → Bool → Int
  IsRequestTypeSupported : Client → Int → Int → Bool
  ExprToPB : Client → EvalContext → Expression → Option (tipb.Expr F)
  ToPBFieldType : Option FieldType → Outcome F

/-- The loop of lines 134-140 of `WindowFuncToPBExpr` over the remaining
arguments, `children` being the slice built so far: `none` stands for the
`return nil` on an argument the converter maps to nil. -/
def convertArgs {Expression F : Type} (conv : Expression → Option (tipb.Expr F)) :
    List Expression → List (tipb.Expr F) → Option (List (tipb.Expr F))
  | [], children => some children
  | arg :: rest, children =>
    match conv arg with
    | none => none
    | some pbArg => convertArgs conv rest (children ++ [pbArg])

/-- Function `WindowFuncToPBExpr`; the result `none` is the nil `*tipb.Expr`. -/
def WindowFuncToPBExpr {EvalContext Client Expression F : Type}
    (P : PBCollab EvalContext Client Expression F) (sctx : EvalContext) (client : Client)
    (desc : WindowFuncDesc Expression) : Outcome (Option (tipb.Expr F)) :=
  let tp := P.GetTiPBExpr desc.tobaseFuncDesc true
  if !P.IsRequestTypeSupported client ReqTypeSelect tp then Outcome.ret none
  else
    match convertArgs (P.ExprToPB client sctx) desc.Args [] with
    | none => Outcome.ret none
    | some children =>
      match P.ToPBFieldType desc.RetTp with
      | Outcome.panic p => Outcome.panic p
      | Outcome.ret ft => Outcome.ret (some (tipb.Expr.mk tp children ft))

/-! ## Clone, over a store of return types -/

/-- The store of the `types.FieldType` objects that descriptors point to; an
address is an index into `cells`. -/
structure Heap where
  cells : List FieldType
  deriving DecidableEq

/-- Reading through a pointer; `none` for an address that is not allocated. -/
def Heap.read (h : Heap) (p : Nat) : Option FieldType := h.cells[p]?

/-- Allocation of a new object: the new store and the fresh address. -/
def Heap.alloc (h : Heap) (ft : FieldType) : Heap × Nat :=
  ({ cells := h.cells ++ [ft] }, h.cells.length)

/-- Assignment through a pointer. -/
def Heap.write (h : Heap) (p : Nat) (ft : FieldType) : Heap :=
  { cells := h.cells.set p ft }

/-- A descriptor as it lives in memory: `RetTp` is the address of its return
type in the store, `none` when nil. -/
structure DescRef (Expression : Type) where
  Name : String
  Args : List Expression
  RetTp : Option Nat
  deriving DecidableEq

/-- Modelled from the spec: method `baseFuncDesc.clone`, declared outside the
embedded files, is a deep copy with independent ownership: the copy has the
name and the arguments of the original and points to a newly allocated copy of
its return type. -/
def DescRef.clone {Expression : Type} (h : Heap) (a : DescRef Expression) :
    Heap × DescRef Expression :=
  match a.RetTp.bind h.read with
  | none => (h, { a with RetTp := none })
  | some ft => ((h.alloc ft).1, { a with RetTp := some (h.alloc ft).2 })

/-- Method `WindowFuncDesc.Clone`: `&WindowFuncDesc{*s.baseFuncDesc.clone()}`,
a new descriptor holding the fields of the clone of the base descriptor. -/
def Clone {Expression : Type} (h : Heap) (s : DescRef Expression) :
    Heap × DescRef Expression :=
  match DescRef.clone h s with
  | (h1, c) => (h1, { Name := c.Name, Args := c.Args, RetTp := c.RetTp })

/-- The call `d.RetTp.SetFlag(flag)` on a descriptor in memory. -/
def setFlagOf {Expression : Type} (h : Heap) (d : DescRef Expression) (flag : Nat) : Heap :=
  match d.RetTp with
  | none => h
  | some p =>
    match h.read p with
    | none => h
    | some ft => h.write p (ft.SetFlag flag)

/-- The call `d.RetTp.DelFlag(flag)` on a descriptor in memory. -/
def delFlagOf {Expression : Type} (h : Heap) (d : DescRef Expression) (flag : Nat) : Heap :=
  match d.RetTp with
  | none => h
  | some p =>
    match h.read p with
    | none => h
    | some ft => h.write p (ft.DelFlag flag)

/-! ## The CPU-load mock (`pkg/util/cpuprofile/testutil/util.go`) -/

/-- The UTF-8 bytes of a rune, as in the Go conversion `[]byte(s)`. -/
def runeBytes (c : Char) : List Nat :=
  let n := c.toNat
  if n < 128 then [n]
  else if n < 2048 then [192 + n / 64, 128 + n % 64]
  else if n < 65536 then [224 + n / 4096, 128 + n / 64 % 64, 128 + n % 64]
  else [240 + n / 262144, 128 + n / 4096 % 64, 128 + n / 64 % 64, 128 + n % 64]

/-- The digit of `hex.EncodeToString` for a value below 16. -/
def hexDigit (n : Nat) : Char :=
  ['0', '1', '2', '3', '4', '5', '6', '7', '8', '9', 'a', 'b', 'c', 'd', 'e', 'f'].getD n '0'

/-- The expression `hex.EncodeToString([]byte(s))`: two lowercase hexadecimal
digits for every byte. -/
def EncodeToString (s : String) : String :=
  String.mk ((s.data.flatMap runeBytes).flatMap (fun v => [hexDigit (v / 16), hexDigit (v % 16)]))

/-- Function `MockCPULoad`, as the argument lists of the calls
`go mockCPULoadByGoroutineWithLabel(ctx, ...)` it makes, in program order: one
call in every round of the loop, then the call with the combined list `lvs`.
The state of the fold is `lvs` and the calls made so far. -/
def MockCPULoad (labels : List String) : List (List String) :=
  let st := labels.foldl
    (fun (st : List String × List (List String)) label =>
      let lvs := st.1 ++ [label]
      let val := EncodeToString (label ++ " value")
      let lvs := lvs ++ [val]
      (lvs, st.2 ++ [[label, label ++ " value"]]))
    ([], [])
  st.2 ++ [st.1]

/-- Function `MockCPULoadV2`, as the argument lists of the calls
`go mockCPULoadByGoroutineWithLabel(ctx, ...)` it makes, in program order. -/
def MockCPULoadV2 (labelValues : List String) : List (List String) :=
  let label := "sql_global_uid"
  let st := labelValues.foldl
    (fun (st : List String × List (List String)) labelValue =>
      let lvs := st.1 ++ [label]
      let lvs := lvs ++ [labelValue]
      (lvs, st.2 ++ [[label, labelValue]]))
    ([], [])
  st.2 ++ [st.1]

/-! ## Sample collaborators used to evaluate the definitions -/

/-- A sample expression: what the constant extractor reports for it and the
flag word of its type. -/
structure SampleExpr where
  val : Nat
  isNull : Bool
  ok : Bool
  flag : Nat
  deriving DecidableEq

/-- Sample collaborators over `SampleExpr`: the extractor and the type read
the fields of the expression; base construction knows the functions of `known`,
gives them the return type `ret`, and fails on any other name with the error
`unsupported` and a nil `RetTp`. -/
def sampleCollab (known : List String) (ret : FieldType) :
    Collab Unit Unit SampleExpr String where
  GetEvalCtx := fun _ => ()
  GetUint64FromConstant := fun _ e => (e.val, e.isNull, e.ok)
  GetType := fun e _ => { tp := 8, flag := e.flag, flen := 20, decimal := 0,
                          charset := "binary", collate := "binary" }
  newBaseFuncDesc := fun _ name args =>
    if ToLower asciiLower name ∈ known then
      ({ Name := ToLower asciiLower name, Args := args, RetTp := some ret }, none)
    else
      ({ Name := ToLower asciiLower name, Args := args, RetTp := none },
        some ("unsupported agg function: " ++ ToLower asciiLower name))

/-- A sample return type: BIGINT with flag word `flag`. -/
def sampleType (flag : Nat) : FieldType :=
  { tp := 8, flag := flag, flen := 20, decimal := 0, charset := "binary", collate := "binary" }

/-- A constant expression with value `v`, nullable type. -/
def constExpr (v : Nat) : SampleExpr := { val := v, isNull := false, ok := true, flag := 0 }

/-- The constant `NULL`. -/
def nullExpr : SampleExpr := { val := 0, isNull := true, ok := true, flag := 0 }

/-- A column reference: not a constant; its type has flag word `flag`. -/
def colExpr (flag : Nat) : SampleExpr := { val := 0, isNull := false, ok := false, flag := flag }

/-- Sample collaborators of the wire conversion over `SampleExpr`: the client
supports the tag or not as `supported` says, the converter maps the
expressions accepted by `convertible` to a leaf carrying their value, and the
field type of a return type is its type byte. -/
def samplePB (supported : Bool) (convertible : SampleExpr → Bool) :
    PBCollab Unit Unit SampleExpr Nat where
  GetTiPBExpr := fun d _ => if d.Name = "row_number" then 4001 else 3002
  IsRequestTypeSupported := fun _ _ _ => supported
  ExprToPB := fun _ _ e =>
    if convertible e then some (tipb.Expr.mk (Int.ofNat e.val) [] 0) else none
  ToPBFieldType := fun t =>
    match t with
    | none => Outcome.panic GoPanic.nilDereference
    | some ft => Outcome.ret ft.tp

/-! ## Shared lemmas -/

section Lemmas

variable {BuildContext EvalContext Expression Err : Type}

theorem hasNotNull_SetFlag (ft : FieldType) :
    (ft.SetFlag NotNullFlag).hasNotNull = true := by
  have h : (ft.flag ||| NotNullFlag) &&& NotNullFlag ≠ 0 := by
    intro h0
    have hb := congrArg (fun n => Nat.testBit n 0) h0
    simp [Nat.testBit_land, Nat.testBit_lor, NotNullFlag] at hb
  simpa [FieldType.hasNotNull, FieldType.SetFlag, FieldType.GetFlag] using h

theorem hasNotNull_DelFlag (ft : FieldType) :
    (ft.DelFlag NotNullFlag).hasNotNull = false := by
  have h : (maxUint ^^^ NotNullFlag) &&& NotNullFlag = 0 := by decide
  simp [FieldType.hasNotNull, FieldType.DelFlag, FieldType.GetFlag, Nat.land_assoc, h]

/-- With the checks skipped the call never ends in the silent rejection. -/
theorem skip_ne_reject (lower : Char → Char)
    (E : Collab BuildContext EvalContext Expression Err) (ctx : BuildContext)
    (name : String) (args : List Expression) :
    NewWindowFuncDesc lower E ctx name args true ≠ Outcome.ret (none, none) := by
  unfold NewWindowFuncDesc
  simp only [if_true]
  split
  · simp
  · split <;> simp

/-- A check that lets the call through leaves the outcome of the call with the
checks skipped. -/
theorem of_check_false (lower : Char → Char)
    (E : Collab BuildContext EvalContext Expression Err) (ctx : BuildContext)
    (name : String) (args : List Expression)
    (h : checkArgs lower E ctx name args = Outcome.ret false) :
    NewWindowFuncDesc lower E ctx name args false =
      NewWindowFuncDesc lower E ctx name args true := by
  simp [NewWindowFuncDesc, h]

/-- A failed check ends the call with the silent rejection. -/
theorem of_check_true (lower : Char → Char)
    (E : Collab BuildContext EvalContext Expression Err) (ctx : BuildContext)
    (name : String) (args : List Expression)
    (h : checkArgs lower E ctx name args = Outcome.ret true) :
    NewWindowFuncDesc lower E ctx name args false = Outcome.ret (none, none) := by
  simp [NewWindowFuncDesc, h]

/-- The silent rejection is returned exactly when the check fails. -/
theorem reject_iff_check (lower : Char → Char)
    (E : Collab BuildContext EvalContext Expression Err) (ctx : BuildContext)
    (name : String) (args : List Expression) (b : Bool)
    (h : checkArgs lower E ctx name args = Outcome.ret b) :
    NewWindowFuncDesc lower E ctx name args false = Outcome.ret (none, none) ↔ b = true := by
  cases b with
  | true => simp [of_check_true lower E ctx name args h]
  | false =>
    rw [of_check_false lower E ctx name args h]
    simpa using skip_ne_reject lower E ctx name args

theorem checkArgs_nth_value (lower : Char → Char)
    (E : Collab BuildContext EvalContext Expression Err) (ctx : BuildContext)
    (name : String) (args : List Expression) (arg : Expression)
    (hname : ToLower lower name = WindowFuncNthValue) (harg : args[1]? = some arg) :
    checkArgs lower E ctx name args =
      Outcome.ret (!(E.GetUint64FromConstant (E.GetEvalCtx ctx) arg).2.2 ||
        ((E.GetUint64FromConstant (E.GetEvalCtx ctx) arg).1 == 0 &&
          !(E.GetUint64FromConstant (E.GetEvalCtx ctx) arg).2.1)) := by
  simp [checkArgs, hname, harg]

theorem checkArgs_ntile (lower : Char → Char)
    (E : Collab BuildContext EvalContext Expression Err) (ctx : BuildContext)
    (name : String) (args : List Expression) (arg : Expression)
    (hname : ToLower lower name = WindowFuncNtile) (harg : args[0]? = some arg) :
    checkArgs lower E ctx name args =
      Outcome.ret (!(E.GetUint64FromConstant (E.GetEvalCtx ctx) arg).2.2 ||
        ((E.GetUint64FromConstant (E.GetEvalCtx ctx) arg).1 == 0 &&
          !(E.GetUint64FromConstant (E.GetEvalCtx ctx) arg).2.1)) := by
  have h1 : WindowFuncNtile ≠ WindowFuncNthValue := by decide
  simp [checkArgs, hname, h1, harg]

theorem checkArgs_lead_lag_short (lower : Char → Char)
    (E : Collab BuildContext EvalContext Expression Err) (ctx : BuildContext)
    (name : String) (args : List Expression)
    (hname : ToLower lower name = WindowFuncLead ∨ ToLower lower name = WindowFuncLag)
    (hlen : args.length < 2) :
    checkArgs lower E ctx name args = Outcome.ret false := by
  have h1 : ¬ ToLower lower name = WindowFuncNthValue := by
    rcases hname with h | h <;> rw [h] <;> decide
  have h2 : ¬ ToLower lower name = WindowFuncNtile := by
    rcases hname with h | h <;> rw [h] <;> decide
  simp [checkArgs, h1, h2, hname, hlen]

theorem checkArgs_lead_lag (lower : Char → Char)
    (E : Collab BuildContext EvalContext Expression Err) (ctx : BuildContext)
    (name : String) (args : List Expression) (arg : Expression)
    (hname : ToLower lower name = WindowFuncLead ∨ ToLower lower name = WindowFuncLag)
    (harg : args[1]? = some arg) :
    checkArgs lower E ctx name args =
      Outcome.ret (!(E.GetUint64FromConstant (E.GetEvalCtx ctx) arg).2.2 ||
        (E.GetUint64FromConstant (E.GetEvalCtx ctx) arg).2.1) := by
  have h1 : ¬ ToLower lower name = WindowFuncNthValue := by
    rcases hname with h | h <;> rw [h] <;> decide
  have h2 : ¬ ToLower lower name = WindowFuncNtile := by
    rcases hname with h | h <;> rw [h] <;> decide
  have h3 : ¬ args.length < 2 := by
    have := (List.getElem?_eq_some.mp harg).1
    omega
  simp [checkArgs, h1, h2, hname, h3, harg]

theorem checkArgs_other (lower : Char → Char)
    (E : Collab BuildContext EvalContext Expression Err) (ctx : BuildContext)
    (name : String) (args : List Expression)
    (h1 : ToLower lower name ≠ WindowFuncNthValue) (h2 : ToLower lower name ≠ WindowFuncNtile)
    (h3 : ToLower lower name ≠ WindowFuncLead) (h4 : ToLower lower name ≠ WindowFuncLag) :
    checkArgs lower E ctx name args = Outcome.ret false := by
  simp [checkArgs, h1, h2, h3, h4]

/-- The call with the checks skipped, when the nullability switch panics. -/
theorem skip_eq_panic (lower : Char → Char)
    (E : Collab BuildContext EvalContext Expression Err) (ctx : BuildContext)
    (name : String) (args : List Expression) (base : baseFuncDesc Expression)
    (err : Option Err) (p : GoPanic) (hnew : E.newBaseFuncDesc ctx name args = (base, err))
    (hres : resolveNullability E ctx name args base = Outcome.panic p) :
    NewWindowFuncDesc lower E ctx name args true = Outcome.panic p := by
  simp [NewWindowFuncDesc, hnew, hres]

/-- The call with the checks skipped, when base construction fails and the
nullability switch returns. -/
theorem skip_eq_err (lower : Char → Char)
    (E : Collab BuildContext EvalContext Expression Err) (ctx : BuildContext)
    (name : String) (args : List Expression) (base base1 : baseFuncDesc Expression)
    (e : Err) (hnew : E.newBaseFuncDesc ctx name args = (base, some e))
    (hres : resolveNullability E ctx name args base = Outcome.ret base1) :
    NewWindowFuncDesc lower E ctx name args true = Outcome.ret (none, some e) := by
  simp [NewWindowFuncDesc, hnew, hres]

/-- The call with the checks skipped, when base construction succeeds and the
nullability switch returns. -/
theorem skip_eq_ok (lower : Char → Char)
    (E : Collab BuildContext EvalContext Expression Err) (ctx : BuildContext)
    (name : String) (args : List Expression) (base base1 : baseFuncDesc Expression)
    (hnew : E.newBaseFuncDesc ctx name args = (base, none))
    (hres : resolveNullability E ctx name args base = Outcome.ret base1) :
    NewWindowFuncDesc lower E ctx name args true =
      Outcome.ret (some { tobaseFuncDesc := base1 }, none) := by
  simp [NewWindowFuncDesc, hnew, hres]

/-- With a non-nil `RetTp` the nullability switch does not panic: it returns
the base descriptor with the not-null flag of `RetTp` either set or cleared. -/
theorem resolveNullability_some (E : Collab BuildContext EvalContext Expression Err)
    (ctx : BuildContext) (name : String) (args : List Expression)
    (base : baseFuncDesc Expression) (ft : FieldType) (h : base.RetTp = some ft) :
    resolveNullability E ctx name args base =
        Outcome.ret { base with RetTp := some (ft.SetFlag NotNullFlag) } ∨
    resolveNullability E ctx name args base =
        Outcome.ret { base with RetTp := some (ft.DelFlag NotNullFlag) } := by
  have hs : setNotNull base = Outcome.ret { base with RetTp := some (ft.SetFlag NotNullFlag) } := by
    simp [setNotNull, h]
  have hd : delNotNull base = Outcome.ret { base with RetTp := some (ft.DelFlag NotNullFlag) } := by
    simp [delNotNull, h]
  unfold resolveNullability
  rw [hs, hd]
  split
  · exact Or.inl rfl
  · split
    · split
      · rename_i h3
        match args, h3 with
        | [a, b, c], _ =>
          simp only [List.getElem?_cons_zero, List.getElem?_cons_succ]
          split
          · split
            · exact Or.inl rfl
            · exact Or.inr rfl
          · exact Or.inr rfl
      · exact Or.inr rfl
    · exact Or.inr rfl

theorem setNotNull_ret (base b : baseFuncDesc Expression)
    (h : setNotNull base = Outcome.ret b) :
    ∃ ft, b.RetTp = some ft ∧ ft.hasNotNull = true := by
  unfold setNotNull at h
  split at h
  · cases h
  · cases h
    exact ⟨_, rfl, hasNotNull_SetFlag _⟩

theorem delNotNull_ret (base b : baseFuncDesc Expression)
    (h : delNotNull base = Outcome.ret b) :
    ∃ ft, b.RetTp = some ft ∧ ft.hasNotNull = false := by
  unfold delNotNull at h
  split at h
  · cases h
  · cases h
    exact ⟨_, rfl, hasNotNull_DelFlag _⟩

/-- A returned descriptor is the base descriptor that left the nullability
switch, and it comes with a nil error. -/
theorem ret_desc_inv (lower : Char → Char)
    (E : Collab BuildContext EvalContext Expression Err) (ctx : BuildContext)
    (name : String) (args : List Expression) (skip : Bool)
    (d : WindowFuncDesc Expression) (err : Option Err)
    (h : NewWindowFuncDesc lower E ctx name args skip = Outcome.ret (some d, err)) :
    err = none ∧
    resolveNullability E ctx name args (E.newBaseFuncDesc ctx name args).1 =
      Outcome.ret d.tobaseFuncDesc := by
  unfold NewWindowFuncDesc at h
  split at h
  · cases h
  · cases h
  · simp only at h
    cases hres : resolveNullability E ctx name args (E.newBaseFuncDesc ctx name args).1 with
    | panic p => rw [hres] at h; cases h
    | ret base1 =>
      rw [hres] at h
      cases herr : (E.newBaseFuncDesc ctx name args).2 with
      | some e => rw [herr] at h; cases h
      | none =>
        rw [herr] at h
        cases h
        exact ⟨rfl, rfl⟩

/-- The first case of the nullability switch. -/
theorem resolveNullability_notNullFuncs
    (E : Collab BuildContext EvalContext Expression Err) (ctx : BuildContext)
    (name : String) (args : List Expression) (base : baseFuncDesc Expression)
    (hname : name ∈ notNullFuncs) :
    resolveNullability E ctx name args base = setNotNull base := by
  simp only [resolveNullability, hname, if_true]

/-- The lead/lag case of the nullability switch on exactly three arguments. -/
theorem resolveNullability_lead_lag_three
    (E : Collab BuildContext EvalContext Expression Err) (ctx : BuildContext)
    (name : String) (a b c : Expression) (base : baseFuncDesc Expression)
    (hname : name = WindowFuncLead ∨ name = WindowFuncLag) :
    resolveNullability E ctx name [a, b, c] base =
      if (E.GetType a (E.GetEvalCtx ctx)).hasNotNull = true ∧
         (E.GetType c (E.GetEvalCtx ctx)).hasNotNull = true
      then setNotNull base else delNotNull base := by
  have h1 : name ∉ notNullFuncs := by
    rcases hname with h | h <;> rw [h] <;> decide
  simp only [resolveNullability, h1, hname, if_true, if_false, List.length_cons,
    List.length_nil, List.getElem?_cons_zero, List.getElem?_cons_succ]
  by_cases ha : (E.GetType a (E.GetEvalCtx ctx)).hasNotNull = true
  · by_cases hc : (E.GetType c (E.GetEvalCtx ctx)).hasNotNull = true
    · simp [ha, hc]
    · simp [ha, hc]
  · simp [ha]

/-- The lead/lag case of the nullability switch on any other number of
arguments. -/
theorem resolveNullability_lead_lag_other
    (E : Collab BuildContext EvalContext Expression Err) (ctx : BuildContext)
    (name : String) (args : List Expression) (base : baseFuncDesc Expression)
    (hname : name = WindowFuncLead ∨ name = WindowFuncLag) (hlen : args.length ≠ 3) :
    resolveNullability E ctx name args base = delNotNull base := by
  have h1 : name ∉ notNullFuncs := by
    rcases hname with h | h <;> rw [h] <;> decide
  simp only [resolveNullability, h1, hname, hlen, if_true, if_false]

/-- The default case of the nullability switch. -/
theorem resolveNullability_default
    (E : Collab BuildContext EvalContext Expression Err) (ctx : BuildContext)
    (name : String) (args : List Expression) (base : baseFuncDesc Expression)
    (h1 : name ∉ notNullFuncs) (h2 : name ≠ WindowFuncLead) (h3 : name ≠ WindowFuncLag) :
    resolveNullability E ctx name args base = delNotNull base := by
  simp only [resolveNullability, h1, h2, h3, or_self, if_false]

/-- With a nil `RetTp` every path of the nullability switch ends in a method
call through the nil pointer. -/
theorem resolveNullability_nil
    (E : Collab BuildContext EvalContext Expression Err) (ctx : BuildContext)
    (name : String) (args : List Expression) (base : baseFuncDesc Expression)
    (h : base.RetTp = none) :
    resolveNullability E ctx name args base = Outcome.panic GoPanic.nilDereference := by
  have hs : setNotNull base = Outcome.panic GoPanic.nilDereference := by
    simp [setNotNull, h]
  have hd : delNotNull base = Outcome.panic GoPanic.nilDereference := by
    simp [delNotNull, h]
  unfold resolveNullability
  rw [hs, hd]
  split
  · rfl
  · split
    · split
      · rename_i h3
        match args, h3 with
        | [a, b, c], _ =>
          simp only [List.getElem?_cons_zero, List.getElem?_cons_succ]
          split
          · split <;> rfl
          · rfl
      · rfl
    · rfl

/-- Whenever base construction hands back a nil `RetTp`, with or without an
error, the call that reaches the nullability switch panics. -/
theorem skip_panics_of_nil_RetTp (lower : Char → Char)
    (E : Collab BuildContext EvalContext Expression Err) (ctx : BuildContext)
    (name : String) (args : List Expression)
    (h : (E.newBaseFuncDesc ctx name args).1.RetTp = none) :
    NewWindowFuncDesc lower E ctx name args true =
      Outcome.panic GoPanic.nilDereference :=
  skip_eq_panic lower E ctx name args _ _ _ rfl
    (resolveNullability_nil E ctx name args _ h)

/-- When base construction fails but hands back a non-nil `RetTp`, the call
with the checks skipped returns the error and no descriptor. -/
theorem skip_error_of_some_RetTp (lower : Char → Char)
    (E : Collab BuildContext EvalContext Expression Err) (ctx : BuildContext)
    (name : String) (args : List Expression) (base : baseFuncDesc Expression)
    (ft : FieldType) (e : Err)
    (hnew : E.newBaseFuncDesc ctx name args = (base, some e)) (hft : base.RetTp = some ft) :
    NewWindowFuncDesc lower E ctx name args true = Outcome.ret (none, some e) := by
  rcases resolveNullability_some E ctx name args base ft hft with h | h
  · exact skip_eq_err lower E ctx name args base _ e hnew h
  · exact skip_eq_err lower E ctx name args base _ e hnew h

/-- The call with the checks skipped does not depend on the constant
extractor. -/
theorem skip_extractor_irrelevant (lower : Char → Char)
    (E : Collab BuildContext EvalContext Expression Err) (ctx : BuildContext)
    (name : String) (args : List Expression)
    (extractor : EvalContext → Expression → Nat × Bool × Bool) :
    NewWindowFuncDesc lower { E with GetUint64FromConstant := extractor } ctx name args true =
      NewWindowFuncDesc lower E ctx name args true := by
  simp [NewWindowFuncDesc, resolveNullability]

/-- A name whose lowercase form has no case in the legality switch is
constructed as if the checks were skipped. -/
theorem unchecked_name_eq_skip (lower : Char → Char)
    (E : Collab BuildContext EvalContext Expression Err) (ctx : BuildContext)
    (name : String) (args : List Expression)
    (h : ToLower lower name ∉
      [WindowFuncNthValue, WindowFuncNtile, WindowFuncLead, WindowFuncLag]) :
    NewWindowFuncDesc lower E ctx name args false =
      NewWindowFuncDesc lower E ctx name args true := by
  simp only [List.mem_cons, List.mem_singleton, not_or, List.mem_nil_iff, or_false] at h
  exact of_check_false lower E ctx name args
    (checkArgs_other lower E ctx name args h.1 h.2.1 h.2.2.1 h.2.2.2)

/-- The not-null flag of a returned descriptor, as computed by the nullability
switch from the name, the number of arguments and the declared types of the
first and third argument. -/
theorem ret_flag (lower : Char → Char)
    (E : Collab BuildContext EvalContext Expression Err) (ctx : BuildContext)
    (name : String) (args : List Expression) (skip : Bool)
    (d : WindowFuncDesc Expression) (err : Option Err)
    (hret : NewWindowFuncDesc lower E ctx name args skip = Outcome.ret (some d, err)) :
    ∃ ft, d.RetTp = some ft ∧
      ft.hasNotNull =
        (decide (name ∈ notNullFuncs) ||
          (decide (name = WindowFuncLead ∨ name = WindowFuncLag) &&
            decide (args.length = 3) &&
            (args[0]?.map (fun a => (E.GetType a (E.GetEvalCtx ctx)).hasNotNull)).getD false &&
            (args[2]?.map (fun a => (E.GetType a (E.GetEvalCtx ctx)).hasNotNull)).getD false)) := by
  have hres := (ret_desc_inv lower E ctx name args skip d err hret).2
  by_cases h1 : name ∈ notNullFuncs
  · rw [resolveNullability_notNullFuncs E ctx name args _ h1] at hres
    obtain ⟨ft, hft, hnn⟩ := setNotNull_ret _ _ hres
    exact ⟨ft, hft, by simp [hnn, h1]⟩
  · by_cases h2 : name = WindowFuncLead ∨ name = WindowFuncLag
    · by_cases hlen : args.length = 3
      · match args, hlen with
        | [a, b, c], _ =>
          rw [resolveNullability_lead_lag_three E ctx name a b c _ h2] at hres
          split at hres
          · rename_i hac
            obtain ⟨ft, hft, hnn⟩ := setNotNull_ret _ _ hres
            exact ⟨ft, hft, by simp [hnn, h2, hac.1, hac.2]⟩
          · rename_i hac
            obtain ⟨ft, hft, hnn⟩ := delNotNull_ret _ _ hres
            refine ⟨ft, hft, ?_⟩
            rw [hnn]
            simp only [not_and, Bool.not_eq_true] at hac
            by_cases ha : (E.GetType a (E.GetEvalCtx ctx)).hasNotNull = true
            · simp [h1, ha, hac ha]
            · simp [h1, ha]
      · rw [resolveNullability_lead_lag_other E ctx name args _ h2 hlen] at hres
        obtain ⟨ft, hft, hnn⟩ := delNotNull_ret _ _ hres
        exact ⟨ft, hft, by simp [hnn, h1, hlen]⟩
    · have h3 : name ≠ WindowFuncLead := fun h => h2 (Or.inl h)
      have h4 : name ≠ WindowFuncLag := fun h => h2 (Or.inr h)
      rw [resolveNullability_default E ctx name args _ h1 h3 h4] at hres
      obtain ⟨ft, hft, hnn⟩ := delNotNull_ret _ _ hres
      exact ⟨ft, hft, by simp [hnn, h1, h3, h4]⟩

theorem asciiLower_idem (c : Char) : asciiLower (asciiLower c) = asciiLower c := by
  by_cases h : 65 ≤ c.toNat ∧ c.toNat ≤ 90
  · have hc : asciiLower c = Char.ofNat (c.toNat + 32) := by simp [asciiLower, h]
    rw [hc]
    obtain ⟨h1, h2⟩ := h
    generalize c.toNat = n at h1 h2
    interval_cases n <;> decide
  · have hc : asciiLower c = c := by simp only [asciiLower, h, if_false]
    rw [hc, hc]

theorem ToLower_idem (lower : Char → Char) (hidem : ∀ c, lower (lower c) = lower c)
    (s : String) : ToLower lower (ToLower lower s) = ToLower lower s := by
  have h : lower ∘ lower = lower := funext hidem
  simp [ToLower, h]

/-- The conversion loop fails exactly when the converter maps one of the
remaining arguments to nil. -/
theorem convertArgs_eq_none_iff {F : Type} (conv : Expression → Option (tipb.Expr F))
    (args : List Expression) (children : List (tipb.Expr F)) :
    convertArgs conv args children = none ↔ ∃ a ∈ args, conv a = none := by
  induction args generalizing children with
  | nil => simp [convertArgs]
  | cons arg rest ih =>
    cases h : conv arg with
    | none => simp [convertArgs, h]
    | some pbArg => simp [convertArgs, h, ih]

/-- When the conversion loop succeeds, the slice it returns is the slice built
before, followed by the conversions of the remaining arguments in order. -/
theorem convertArgs_eq_some {F : Type} (conv : Expression → Option (tipb.Expr F))
    (args : List Expression) (children r : List (tipb.Expr F))
    (h : convertArgs conv args children = some r) :
    ∃ cs, r = children ++ cs ∧ args.map conv = cs.map some := by
  induction args generalizing children with
  | nil =>
    simp only [convertArgs, Option.some.injEq] at h
    exact ⟨[], by simp [h]⟩
  | cons arg rest ih =>
    cases hc : conv arg with
    | none => simp [convertArgs, hc] at h
    | some pbArg =>
      simp only [convertArgs, hc] at h
      obtain ⟨cs, hr, hmap⟩ := ih (children ++ [pbArg]) h
      exact ⟨pbArg :: cs, by simp [hr], by simp [hc, hmap]⟩

/-- A returned wire node: the tag was supported, the loop converted every
argument, and the node is built from the tag, the conversions and the field
type. -/
theorem toPB_some_inv {Client F : Type}
    (P : PBCollab EvalContext Client Expression F) (sctx : EvalContext) (client : Client)
    (desc : WindowFuncDesc Expression) (node : tipb.Expr F)
    (h : WindowFuncToPBExpr P sctx client desc = Outcome.ret (some node)) :
    P.IsRequestTypeSupported client ReqTypeSelect (P.GetTiPBExpr desc.tobaseFuncDesc true) = true ∧
    ∃ children ft,
      convertArgs (P.ExprToPB client sctx) desc.Args [] = some children ∧
      P.ToPBFieldType desc.RetTp = Outcome.ret ft ∧
      node = tipb.Expr.mk (P.GetTiPBExpr desc.tobaseFuncDesc true) children ft := by
  unfold WindowFuncToPBExpr at h
  simp only at h
  split at h
  · cases h
  · rename_i hsup
    simp only [Bool.not_eq_true, Bool.not_eq_eq_eq_not, Bool.not_true, Bool.not_false,
      Bool.not_eq_false] at hsup
    cases hc : convertArgs (P.ExprToPB client sctx) desc.Args [] with
    | none => rw [hc] at h; cases h
    | some children =>
      rw [hc] at h
      cases hf : P.ToPBFieldType desc.RetTp with
      | panic p => rw [hf] at h; cases h
      | ret ft =>
        rw [hf] at h
        simp only [Outcome.ret.injEq, Option.some.injEq] at h
        exact ⟨by simpa using hsup, children, ft, rfl, rfl, h.symm⟩

/-- The clone of a descriptor whose return type is allocated: the store grows
by a copy of the return type, and the clone points to it. -/
theorem Clone_eq (h : Heap) (s : DescRef Expression) (p : Nat) (ft : FieldType)
    (hp : s.RetTp = some p) (hft : h.read p = some ft) :
    Clone h s = ({ cells := h.cells ++ [ft] },
      { Name := s.Name, Args := s.Args, RetTp := some h.cells.length }) := by
  simp [Clone, DescRef.clone, hp, hft, Heap.alloc]

/-- Writing to the cell added last leaves every older cell as it was. -/
theorem read_write_fresh (h : Heap) (ft x : FieldType) (q : Nat) (hq : q < h.cells.length) :
    (Heap.write { cells := h.cells ++ [ft] } h.cells.length x).read q = h.read q := by
  have hne : h.cells.length ≠ q := by omega
  simp [Heap.write, Heap.read, List.getElem?_set_ne hne, List.getElem?_append_left hq]

/-- The legality switch does not look at base construction. -/
theorem checkArgs_newBase_irrelevant (lower : Char → Char)
    (E : Collab BuildContext EvalContext Expression Err) (ctx : BuildContext)
    (name : String) (args : List Expression)
    (nb : BuildContext → String → List Expression → baseFuncDesc Expression × Option Err) :
    checkArgs lower { E with newBaseFuncDesc := nb } ctx name args =
      checkArgs lower E ctx name args := by
  simp [checkArgs]

/-- The nullability switch never indexes `args` out of range. -/
theorem resolveNullability_in_bounds
    (E : Collab BuildContext EvalContext Expression Err) (ctx : BuildContext)
    (name : String) (args : List Expression) (base : baseFuncDesc Expression) :
    resolveNullability E ctx name args base ≠ Outcome.panic GoPanic.indexOutOfRange := by
  cases hft : base.RetTp with
  | none => simp [resolveNullability_nil E ctx name args base hft]
  | some ft =>
    rcases resolveNullability_some E ctx name args base ft hft with h | h <;> simp [h]

/-- Under the arity preconditions of nth_value and ntile the legality switch
returns. -/
theorem checkArgs_returns (lower : Char → Char)
    (E : Collab BuildContext EvalContext Expression Err) (ctx : BuildContext)
    (name : String) (args : List Expression)
    (h1 : ToLower lower name = WindowFuncNthValue → 2 ≤ args.length)
    (h2 : ToLower lower name = WindowFuncNtile → 1 ≤ args.length) :
    ∃ b, checkArgs lower E ctx name args = Outcome.ret b := by
  by_cases hn : ToLower lower name = WindowFuncNthValue
  · have hlt : 1 < args.length := h1 hn
    exact ⟨_, checkArgs_nth_value lower E ctx name args args[1] hn
      (List.getElem?_eq_getElem hlt)⟩
  · by_cases ht : ToLower lower name = WindowFuncNtile
    · have hlt : 0 < args.length := h2 ht
      exact ⟨_, checkArgs_ntile lower E ctx name args args[0] ht
        (List.getElem?_eq_getElem hlt)⟩
    · by_cases hl : ToLower lower name = WindowFuncLead ∨ ToLower lower name = WindowFuncLag
      · by_cases hlen : args.length < 2
        · exact ⟨_, checkArgs_lead_lag_short lower E ctx name args hl hlen⟩
        · have hlt : 1 < args.length := by omega
          exact ⟨_, checkArgs_lead_lag lower E ctx name args args[1] hl
            (List.getElem?_eq_getElem hlt)⟩
      · exact ⟨_, checkArgs_other lower E ctx name args hn ht
          (fun h => hl (Or.inl h)) (fun h => hl (Or.inr h))⟩

/-- The bits of a flag word other than the not-null bit, after `SetFlag`. -/
theorem SetFlag_other_bits (ft : FieldType) :
    (ft.SetFlag NotNullFlag).flag &&& (maxUint ^^^ NotNullFlag) =
      ft.flag &&& (maxUint ^^^ NotNullFlag) := by
  have h0 : (maxUint ^^^ NotNullFlag) &&& NotNullFlag = 0 := by decide
  show (ft.flag ||| NotNullFlag) &&& (maxUint ^^^ NotNullFlag) = _
  rw [Nat.and_comm, Nat.and_or_distrib_left, h0, Nat.or_zero, Nat.and_comm]

/-- The bits of a flag word other than the not-null bit, after `DelFlag`. -/
theorem DelFlag_other_bits (ft : FieldType) :
    (ft.DelFlag NotNullFlag).flag &&& (maxUint ^^^ NotNullFlag) =
      ft.flag &&& (maxUint ^^^ NotNullFlag) := by
  show (ft.flag &&& (maxUint ^^^ NotNullFlag)) &&& (maxUint ^^^ NotNullFlag) = _
  rw [Nat.and_assoc, Nat.and_self]

/-- Two flag words that agree outside the not-null bit agree on each of the
bits 1 to 63. -/
theorem testBit_of_masked_eq (x y : Nat)
    (h : x &&& (maxUint ^^^ NotNullFlag) = y &&& (maxUint ^^^ NotNullFlag))
    (i : Nat) (h0 : 0 < i) (h64 : i < 64) : x.testBit i = y.testBit i := by
  have hm : (maxUint ^^^ NotNullFlag).testBit i = true := by
    have h1 : Nat.testBit 1 i = false := by
      cases hb : Nat.testBit 1 i with
      | false => rfl
      | true =>
        have := Nat.testBit_one_eq_true_iff_self_eq_zero.mp hb
        omega
    have hd : (maxUint ^^^ NotNullFlag) = (2 ^ 64 - 1) ^^^ 1 := rfl
    rw [hd, Nat.testBit_xor, Nat.testBit_two_pow_sub_one, h1]
    simp only [h64, decide_True]
    rfl
  have hx := congrArg (fun n => Nat.testBit n i) h
  simp only [Nat.testBit_land, hm, Bool.and_true] at hx
  exact hx

/-- What the nullability switch leaves of the base descriptor it is given:
the name and the arguments, and a return type that differs from the inferred
one in the not-null bit of the flag word at most. -/
theorem resolveNullability_fields
    (E : Collab BuildContext EvalContext Expression Err) (ctx : BuildContext)
    (name : String) (args : List Expression) (base b : baseFuncDesc Expression)
    (h : resolveNullability E ctx name args base = Outcome.ret b) :
    b.Name = base.Name ∧ b.Args = base.Args ∧
    ∃ ft0 ft, base.RetTp = some ft0 ∧ b.RetTp = some ft ∧
      ft.tp = ft0.tp ∧ ft.flen = ft0.flen ∧ ft.decimal = ft0.decimal ∧
      ft.charset = ft0.charset ∧ ft.collate = ft0.collate ∧
      ft.flag &&& (maxUint ^^^ NotNullFlag) = ft0.flag &&& (maxUint ^^^ NotNullFlag) := by
  cases hft : base.RetTp with
  | none =>
    rw [resolveNullability_nil E ctx name args base hft] at h
    cases h
  | some ft0 =>
    rcases resolveNullability_some E ctx name args base ft0 hft with h1 | h1
    · rw [h1] at h
      cases h
      exact ⟨rfl, rfl, ft0, _, rfl, rfl, rfl, rfl, rfl, rfl, rfl, SetFlag_other_bits ft0⟩
    · rw [h1] at h
      cases h
      exact ⟨rfl, rfl, ft0, _, rfl, rfl, rfl, rfl, rfl, rfl, rfl, DelFlag_other_bits ft0⟩

/-- The two lists a labelling loop builds: from the state `(lvs, calls)` the
fold over the remaining labels appends a key and a value for every label to
`lvs` and one call with one pair to `calls`. -/
theorem labels_foldl (key val own : String → String) (labels : List String)
    (lvs : List String) (calls : List (List String)) :
    labels.foldl
      (fun (st : List String × List (List String)) label =>
        (st.1 ++ [key label] ++ [val label], st.2 ++ [[key label, own label]]))
      (lvs, calls) =
    (lvs ++ labels.flatMap (fun l => [key l, val l]),
      calls ++ labels.map (fun l => [key l, own l])) := by
  induction labels generalizing lvs calls with
  | nil => simp
  | cons l rest ih =>
    rw [List.foldl_cons, ih]
    simp [List.flatMap_cons]

/-- A list of consecutive pairs: its length and its entries. -/
theorem flatMap_pair {α β : Type} (f g : α → β) (l : List α) :
    (l.flatMap (fun x => [f x, g x])).length = 2 * l.length ∧
    ∀ i, (l.flatMap (fun x => [f x, g x]))[2 * i]? = l[i]?.map f ∧
         (l.flatMap (fun x => [f x, g x]))[2 * i + 1]? = l[i]?.map g := by
  induction l with
  | nil => simp
  | cons x rest ih =>
    refine ⟨?_, ?_⟩
    · simp only [List.flatMap_cons, List.length_append, List.length_cons, List.length_nil, ih.1]
      omega
    · intro i
      cases i with
      | zero => simp [List.flatMap_cons]
      | succ j =>
        have h1 : 2 * (j + 1) = (2 * j) + 1 + 1 := by omega
        rw [h1]
        simp only [List.flatMap_cons, List.cons_append, List.nil_append,
          List.getElem?_cons_succ]
        exact ih.2 j

/-- A returned error is the error of base construction, it comes without a
descriptor, and the legality checks were skipped or passed. -/
theorem ret_err_inv (lower : Char → Char)
    (E : Collab BuildContext EvalContext Expression Err) (ctx : BuildContext)
    (name : String) (args : List Expression) (skip : Bool)
    (d : Option (WindowFuncDesc Expression)) (e : Err)
    (h : NewWindowFuncDesc lower E ctx name args skip = Outcome.ret (d, some e)) :
    d = none ∧ (E.newBaseFuncDesc ctx name args).2 = some e ∧
    (skip = true ∨ checkArgs lower E ctx name args = Outcome.ret false) := by
  unfold NewWindowFuncDesc at h
  split at h
  · cases h
  · cases h
  · rename_i hchk
    have hpass : skip = true ∨ checkArgs lower E ctx name args = Outcome.ret false := by
      cases skip with
      | true => exact Or.inl rfl
      | false => exact Or.inr (by simpa using hchk)
    simp only at h
    cases hres : resolveNullability E ctx name args (E.newBaseFuncDesc ctx name args).1 with
    | panic p => rw [hres] at h; cases h
    | ret base1 =>
      rw [hres] at h
      cases herr : (E.newBaseFuncDesc ctx name args).2 with
      | some e1 =>
        rw [herr] at h
        cases h
        exact ⟨rfl, rfl, hpass⟩
      | none => rw [herr] at h; cases h

/-- The calls of `MockCPULoad`: one pair for every label, then the combined
list. -/
theorem MockCPULoad_eq (labels : List String) :
    MockCPULoad labels =
      labels.map (fun l => [l, l ++ " value"]) ++
        [labels.flatMap (fun l => [l, EncodeToString (l ++ " value")])] := by
  have h := labels_foldl (fun l => l) (fun l => EncodeToString (l ++ " value"))
    (fun l => l ++ " value") labels [] []
  simp only [List.nil_append] at h
  simp only [MockCPULoad, h]

/-- The calls of `MockCPULoadV2`: one pair for every value, then the combined
list. -/
theorem MockCPULoadV2_eq (labelValues : List String) :
    MockCPULoadV2 labelValues =
      labelValues.map (fun v => ["sql_global_uid", v]) ++
        [labelValues.flatMap (fun v => ["sql_global_uid", v])] := by
  have h := labels_foldl (fun _ => "sql_global_uid") (fun v => v) (fun v => v)
    labelValues [] []
  simp only [List.nil_append] at h
  simp only [MockCPULoadV2, h]

end Lemmas



/-! ## Argument legality checks -/

section Legality

variable {BuildContext EvalContext Expression Err : Type}

/-- The rejection rule of nth_value: for a name whose lowercase form is
nth_value, an argument list with at least two arguments and skipCheckArgs =
false, where the constant extractor reports (val, isNull, ok) for the second
argument, the call returns (nil, nil) exactly when ok is false, or val is 0 and
isNull is false; a call that is let through continues as the call that skips
the checks. -/
theorem nth_value_reject_iff (lower : Char → Char)
    (E : Collab BuildContext EvalContext Expression Err) (ctx : BuildContext)
    (name : String) (args : List Expression)
    (hname : ToLower lower name = WindowFuncNthValue) (hlen : 2 ≤ args.length)
    (val : Nat) (isNull ok : Bool)
    (hext : E.GetUint64FromConstant (E.GetEvalCtx ctx) args[1] = (val, isNull, ok)) :
    (NewWindowFuncDesc lower E ctx name args false = Outcome.ret (none, none) ↔
      (ok = false ∨ (val = 0 ∧ isNull = false))) ∧
    (ok = true → (isNull = true ∨ val ≠ 0) →
      NewWindowFuncDesc lower E ctx name args false ≠ Outcome.ret (none, none) ∧
      NewWindowFuncDesc lower E ctx name args false =
        NewWindowFuncDesc lower E ctx name args true) := by
  have harg : args[1]? = some args[1] := List.getElem?_eq_getElem _
  have hchk := checkArgs_nth_value lower E ctx name args args[1] hname harg
  rw [hext] at hchk
  simp only at hchk
  have hiff := reject_iff_check lower E ctx name args _ hchk
  refine ⟨?_, ?_⟩
  · rw [hiff]
    cases ok <;> cases isNull <;> simp
  · intro hok hval
    have hb : (!ok || (val == 0 && !isNull)) = false := by
      subst hok
      rcases hval with h | h
      · simp [h]
      · simp [h]
    rw [hb] at hchk
    refine ⟨?_, of_check_false lower E ctx name args hchk⟩
    rw [of_check_false lower E ctx name args hchk]
    exact skip_ne_reject lower E ctx name args

/-- The rejection rule of lead and lag: for a name whose lowercase form is lead
or lag and skipCheckArgs = false, with fewer than two arguments the call never
returns (nil, nil) and continues as the call that skips the checks; with two or
more, where the extractor reports (val, isNull, ok) for the second argument, it
returns (nil, nil) exactly when ok is false or isNull is true, so a resolved
non-null offset 0 is let through. -/
theorem lead_lag_reject_iff (lower : Char → Char)
    (E : Collab BuildContext EvalContext Expression Err) (ctx : BuildContext)
    (name : String) (args : List Expression)
    (hname : ToLower lower name = WindowFuncLead ∨ ToLower lower name = WindowFuncLag) :
    (args.length < 2 →
      NewWindowFuncDesc lower E ctx name args false ≠ Outcome.ret (none, none) ∧
      NewWindowFuncDesc lower E ctx name args false =
        NewWindowFuncDesc lower E ctx name args true) ∧
    (∀ (hlen : 2 ≤ args.length) (val : Nat) (isNull ok : Bool),
      E.GetUint64FromConstant (E.GetEvalCtx ctx) args[1] = (val, isNull, ok) →
      ((NewWindowFuncDesc lower E ctx name args false = Outcome.ret (none, none) ↔
          (ok = false ∨ isNull = true)) ∧
       (ok = true → isNull = false → val = 0 →
          NewWindowFuncDesc lower E ctx name args false ≠ Outcome.ret (none, none) ∧
          NewWindowFuncDesc lower E ctx name args false =
            NewWindowFuncDesc lower E ctx name args true))) := by
  refine ⟨?_, ?_⟩
  · intro hlen
    have hchk := checkArgs_lead_lag_short lower E ctx name args hname hlen
    refine ⟨?_, of_check_false lower E ctx name args hchk⟩
    rw [of_check_false lower E ctx name args hchk]
    exact skip_ne_reject lower E ctx name args
  · intro hlen val isNull ok hext
    have harg : args[1]? = some args[1] := List.getElem?_eq_getElem _
    have hchk := checkArgs_lead_lag lower E ctx name args args[1] hname harg
    rw [hext] at hchk
    simp only at hchk
    have hiff := reject_iff_check lower E ctx name args _ hchk
    refine ⟨?_, ?_⟩
    · rw [hiff]
      cases ok <;> cases isNull <;> simp
    · intro hok hnull _
      subst hok hnull
      simp only [Bool.not_true, Bool.or_self] at hchk
      refine ⟨?_, of_check_false lower E ctx name args hchk⟩
      rw [of_check_false lower E ctx name args hchk]
      exact skip_ne_reject lower E ctx name args

/-- C3: for a name whose lowercase form is ntile, a non-empty argument list and
skipCheckArgs = false, where the extractor reports (val, isNull, ok) for the
first argument: the call returns (nil, nil) exactly when ok is false, or val is
0 and isNull is false; otherwise (for instance val = 5, or null) the call is
not rejected, and when generic construction succeeds, returning a base
descriptor with a return type and a nil error, a descriptor is returned with a
nil error. -/
theorem ntile_reject_iff (lower : Char → Char)
    (E : Collab BuildContext EvalContext Expression Err) (ctx : BuildContext)
    (name : String) (args : List Expression)
    (hname : ToLower lower name = WindowFuncNtile) (hlen : 1 ≤ args.length)
    (val : Nat) (isNull ok : Bool)
    (hext : E.GetUint64FromConstant (E.GetEvalCtx ctx) args[0] = (val, isNull, ok)) :
    (NewWindowFuncDesc lower E ctx name args false = Outcome.ret (none, none) ↔
      (ok = false ∨ (val = 0 ∧ isNull = false))) ∧
    (ok = true → (isNull = true ∨ val ≠ 0) →
      NewWindowFuncDesc lower E ctx name args false ≠ Outcome.ret (none, none) ∧
      ∀ (base : baseFuncDesc Expression) (ft : FieldType),
        E.newBaseFuncDesc ctx name args = (base, none) → base.RetTp = some ft →
        ∃ d : WindowFuncDesc Expression,
          NewWindowFuncDesc lower E ctx name args false = Outcome.ret (some d, none)) := by
  have harg : args[0]? = some args[0] := List.getElem?_eq_getElem _
  have hchk := checkArgs_ntile lower E ctx name args args[0] hname harg
  rw [hext] at hchk
  simp only at hchk
  have hiff := reject_iff_check lower E ctx name args _ hchk
  refine ⟨?_, ?_⟩
  · rw [hiff]
    cases ok <;> cases isNull <;> simp
  · intro hok hval
    have hb : (!ok || (val == 0 && !isNull)) = false := by
      subst hok
      rcases hval with h | h
      · simp [h]
      · simp [h]
    rw [hb] at hchk
    have heq := of_check_false lower E ctx name args hchk
    refine ⟨?_, ?_⟩
    · rw [heq]
      exact skip_ne_reject lower E ctx name args
    · intro base ft hnew hft
      rw [heq]
      rcases resolveNullability_some E ctx name args base ft hft with h | h
      · exact ⟨_, skip_eq_ok lower E ctx name args base _ hnew h⟩
      · exact ⟨_, skip_eq_ok lower E ctx name args base _ hnew h⟩

/-- The rejection rule of nth_value on sample collaborators: NTH_VALUE with a null second
argument is let through, with the constant 0 it is rejected. -/
theorem nth_value_reject_iff_witness :
    ToLower asciiLower "NTH_VALUE" = WindowFuncNthValue ∧
    2 ≤ [colExpr 0, nullExpr].length ∧
    NewWindowFuncDesc asciiLower (sampleCollab ["nth_value"] (sampleType 0)) ()
      "NTH_VALUE" [colExpr 0, nullExpr] false ≠ Outcome.ret (none, none) ∧
    NewWindowFuncDesc asciiLower (sampleCollab ["nth_value"] (sampleType 0)) ()
      "NTH_VALUE" [colExpr 0, constExpr 0] false = Outcome.ret (none, none) :=
  ⟨by decide, by decide,
   ((nth_value_reject_iff asciiLower (sampleCollab ["nth_value"] (sampleType 0)) ()
      "NTH_VALUE" [colExpr 0, nullExpr] (by decide) (by decide) 0 true true rfl).2
        rfl (Or.inl rfl)).1,
   (nth_value_reject_iff asciiLower (sampleCollab ["nth_value"] (sampleType 0)) ()
      "NTH_VALUE" [colExpr 0, constExpr 0] (by decide) (by decide) 0 false true rfl).1.mpr
        (Or.inr ⟨rfl, rfl⟩)⟩

/-- The rejection rule of lead and lag on sample collaborators: lag with a column as offset is
rejected, lag without offset and lag with the constant offset 0 are not. -/
theorem lead_lag_reject_iff_witness :
    (ToLower asciiLower "lag" = WindowFuncLead ∨ ToLower asciiLower "lag" = WindowFuncLag) ∧
    NewWindowFuncDesc asciiLower (sampleCollab ["lag"] (sampleType 0)) ()
      "lag" [colExpr 0, colExpr 0] false = Outcome.ret (none, none) ∧
    NewWindowFuncDesc asciiLower (sampleCollab ["lag"] (sampleType 0)) ()
      "lag" [colExpr 0] false ≠ Outcome.ret (none, none) ∧
    NewWindowFuncDesc asciiLower (sampleCollab ["lag"] (sampleType 0)) ()
      "lag" [colExpr 0, constExpr 0] false ≠ Outcome.ret (none, none) :=
  ⟨by decide,
   ((lead_lag_reject_iff asciiLower (sampleCollab ["lag"] (sampleType 0)) ()
      "lag" [colExpr 0, colExpr 0] (by decide)).2 (by decide) 0 false false rfl).1.mpr
        (Or.inl rfl),
   ((lead_lag_reject_iff asciiLower (sampleCollab ["lag"] (sampleType 0)) ()
      "lag" [colExpr 0] (by decide)).1 (by decide)).1,
   (((lead_lag_reject_iff asciiLower (sampleCollab ["lag"] (sampleType 0)) ()
      "lag" [colExpr 0, constExpr 0] (by decide)).2 (by decide) 0 false true rfl).2
        rfl rfl rfl).1⟩

/-- Witness of C3 on sample collaborators: ntile(0) is rejected, ntile(5) is
not. -/
theorem ntile_reject_iff_witness :
    ToLower asciiLower "ntile" = WindowFuncNtile ∧ 1 ≤ [constExpr 5].length ∧
    NewWindowFuncDesc asciiLower (sampleCollab ["ntile"] (sampleType 0)) ()
      "ntile" [constExpr 0] false = Outcome.ret (none, none) ∧
    NewWindowFuncDesc asciiLower (sampleCollab ["ntile"] (sampleType 0)) ()
      "ntile" [constExpr 5] false ≠ Outcome.ret (none, none) ∧
    ∃ d : WindowFuncDesc SampleExpr,
      NewWindowFuncDesc asciiLower (sampleCollab ["ntile"] (sampleType 0)) ()
        "ntile" [constExpr 5] false = Outcome.ret (some d, none) :=
  ⟨by decide, by decide,
   (ntile_reject_iff asciiLower (sampleCollab ["ntile"] (sampleType 0)) ()
      "ntile" [constExpr 0] (by decide) (by decide) 0 false true rfl).1.mpr
        (Or.inr ⟨rfl, rfl⟩),
   ((ntile_reject_iff asciiLower (sampleCollab ["ntile"] (sampleType 0)) ()
      "ntile" [constExpr 5] (by decide) (by decide) 5 false true rfl).2
        rfl (Or.inr (by decide))).1,
   ((ntile_reject_iff asciiLower (sampleCollab ["ntile"] (sampleType 0)) ()
      "ntile" [constExpr 5] (by decide) (by decide) 5 false true rfl).2
        rfl (Or.inr (by decide))).2 _ (sampleType 0) rfl rfl⟩

/-- C1, evaluated where the code departs from it: nth_value over a column and
the constant 5 passes the legality check (the extractor reports a resolved,
non-null, non-zero value); base construction, here one that fails on the call,
returns its error and a base descriptor whose RetTp was never assigned; the
call then does not yield that result: the nullability switch runs before the
error test and panics on the nil RetTp. -/
theorem nth_value_let_through_panics :
    ToLower asciiLower "nth_value" = WindowFuncNthValue ∧
    (sampleCollab ["sum"] (sampleType 0)).GetUint64FromConstant () (constExpr 5) =
      (5, false, true) ∧
    (sampleCollab ["sum"] (sampleType 0)).newBaseFuncDesc () "nth_value"
        [colExpr 0, constExpr 5] =
      ({ Name := "nth_value", Args := [colExpr 0, constExpr 5], RetTp := none },
        some "unsupported agg function: nth_value") ∧
    NewWindowFuncDesc asciiLower (sampleCollab ["sum"] (sampleType 0)) ()
      "nth_value" [colExpr 0, constExpr 5] false = Outcome.panic GoPanic.nilDereference := by
  decide

/-- C2, evaluated where the code departs from it: lag over one argument skips
the legality check, and lag with the constant offset 0 passes it; base
construction, here one that fails on the call, returns its error and a base
descriptor whose RetTp was never assigned; in both calls generic construction
does not decide the result: the nullability switch runs before the error test
and panics on the nil RetTp. -/
theorem lead_lag_let_through_panics :
    (sampleCollab ["sum"] (sampleType 0)).newBaseFuncDesc () "lag" [colExpr 0] =
      ({ Name := "lag", Args := [colExpr 0], RetTp := none },
        some "unsupported agg function: lag") ∧
    NewWindowFuncDesc asciiLower (sampleCollab ["sum"] (sampleType 0)) ()
      "lag" [colExpr 0] false = Outcome.panic GoPanic.nilDereference ∧
    (sampleCollab ["sum"] (sampleType 0)).GetUint64FromConstant () (constExpr 0) =
      (0, false, true) ∧
    NewWindowFuncDesc asciiLower (sampleCollab ["sum"] (sampleType 0)) ()
      "lag" [colExpr 0, constExpr 0] false = Outcome.panic GoPanic.nilDereference := by
  decide

end Legality

/-! ## Generic construction and the nullability rule -/

section Nullability

variable {BuildContext EvalContext Expression Err : Type}

/-- C4, evaluated where the code departs from it: base construction fails on
the unsupported name median with its error and a base descriptor whose RetTp was
never assigned; NewWindowFuncDesc, called with the checks skipped, then runs the
nullability switch before the error test and panics on the nil RetTp instead of
returning (nil, error). -/
theorem construction_error_panics :
    (sampleCollab ["sum"] (sampleType 0)).newBaseFuncDesc () "median" [colExpr 0] =
      ({ Name := "median", Args := [colExpr 0], RetTp := none },
        some "unsupported agg function: median") ∧
    NewWindowFuncDesc asciiLower (sampleCollab ["sum"] (sampleType 0)) ()
      "median" [colExpr 0] true = Outcome.panic GoPanic.nilDereference := by
  decide

/-- C5, evaluated where the code departs from it: with skipCheckArgs = false
and the name STD, whose lowercase form has no legality rule, base construction
fails with an error and a nil RetTp, and the call panics in the nullability
switch instead of returning the construction error. -/
theorem unchecked_call_error_panics :
    ToLower asciiLower "STD" ∉
      [WindowFuncNthValue, WindowFuncNtile, WindowFuncLead, WindowFuncLag] ∧
    (sampleCollab ["sum"] (sampleType 0)).newBaseFuncDesc () "STD" [] =
      ({ Name := "std", Args := [], RetTp := none },
        some "unsupported agg function: std") ∧
    NewWindowFuncDesc asciiLower (sampleCollab ["sum"] (sampleType 0)) ()
      "STD" [] false = Outcome.panic GoPanic.nilDereference := by
  decide

/-- C7: for each of the ten names row_number, rank, dense_rank, cume_dist,
percent_rank, count, approx_count_distinct, bit_and, bit_or, bit_xor and every
argument list, a returned descriptor has a return type with the not-null flag
set, whatever base construction inferred. -/
theorem rank_count_bit_not_null (lower : Char → Char)
    (E : Collab BuildContext EvalContext Expression Err) (ctx : BuildContext)
    (name : String) (args : List Expression) (skip : Bool)
    (d : WindowFuncDesc Expression) (err : Option Err)
    (hname : name ∈ ["row_number", "rank", "dense_rank", "cume_dist", "percent_rank",
      "count", "approx_count_distinct", "bit_and", "bit_or", "bit_xor"])
    (hret : NewWindowFuncDesc lower E ctx name args skip = Outcome.ret (some d, err)) :
    ∃ ft, d.RetTp = some ft ∧ ft.hasNotNull = true := by
  have hres := (ret_desc_inv lower E ctx name args skip d err hret).2
  rw [resolveNullability_notNullFuncs E ctx name args _ hname] at hres
  exact setNotNull_ret _ _ hres

/-- Witness of C7 on sample collaborators: row_number gets the flag although
base construction inferred a nullable type. -/
theorem rank_count_bit_not_null_witness :
    NewWindowFuncDesc asciiLower (sampleCollab ["row_number"] (sampleType 0)) ()
      "row_number" [] false =
      Outcome.ret (some { Name := "row_number", Args := [], RetTp := some (sampleType 1) }, none) ∧
    ∃ ft, (some (sampleType 1) : Option FieldType) = some ft ∧ ft.hasNotNull = true :=
  ⟨by decide,
   rank_count_bit_not_null asciiLower (sampleCollab ["row_number"] (sampleType 0)) ()
     "row_number" [] false
     { Name := "row_number", Args := [], RetTp := some (sampleType 1) } none
     (by decide) (by decide)⟩

/-- C6: for the name lead or lag, a returned descriptor has a return type whose
not-null flag is set if and only if there are exactly three arguments and the
declared types of the first and of the third both carry the not-null flag; the
second argument and the flag inferred by base construction play no part. -/
theorem lead_lag_not_null_iff (lower : Char → Char)
    (E : Collab BuildContext EvalContext Expression Err) (ctx : BuildContext)
    (name : String) (args : List Expression) (skip : Bool)
    (d : WindowFuncDesc Expression) (err : Option Err)
    (hname : name = "lead" ∨ name = "lag")
    (hret : NewWindowFuncDesc lower E ctx name args skip = Outcome.ret (some d, err)) :
    ∃ ft, d.RetTp = some ft ∧
      (ft.hasNotNull = true ↔
        ∃ a b c, args = [a, b, c] ∧
          (E.GetType a (E.GetEvalCtx ctx)).hasNotNull = true ∧
          (E.GetType c (E.GetEvalCtx ctx)).hasNotNull = true) := by
  have hres := (ret_desc_inv lower E ctx name args skip d err hret).2
  by_cases hlen : args.length = 3
  · match args, hlen with
    | [a, b, c], _ =>
      rw [resolveNullability_lead_lag_three E ctx name a b c _ hname] at hres
      split at hres
      · rename_i hac
        obtain ⟨ft, hft, hnn⟩ := setNotNull_ret _ _ hres
        exact ⟨ft, hft, by simp only [hnn, true_iff]; exact ⟨a, b, c, rfl, hac.1, hac.2⟩⟩
      · rename_i hac
        obtain ⟨ft, hft, hnn⟩ := delNotNull_ret _ _ hres
        refine ⟨ft, hft, ?_⟩
        simp only [hnn, Bool.false_eq_true, false_iff]
        rintro ⟨a1, b1, c1, heq, ha, hc⟩
        cases heq
        exact hac ⟨ha, hc⟩
  · rw [resolveNullability_lead_lag_other E ctx name args _ hname hlen] at hres
    obtain ⟨ft, hft, hnn⟩ := delNotNull_ret _ _ hres
    refine ⟨ft, hft, ?_⟩
    simp only [hnn, Bool.false_eq_true, false_iff]
    rintro ⟨a1, b1, c1, heq, -, -⟩
    exact hlen (by rw [heq]; rfl)

/-- Witness of C6 on sample collaborators: lead over three arguments whose
first and third are not-null columns gets the flag, although the offset is
nullable and base construction inferred a nullable type. -/
theorem lead_lag_not_null_iff_witness :
    NewWindowFuncDesc asciiLower (sampleCollab ["lead"] (sampleType 0)) ()
      "lead" [colExpr 1, constExpr 2, colExpr 1] false =
      Outcome.ret (some { Name := "lead", Args := [colExpr 1, constExpr 2, colExpr 1],
                          RetTp := some (sampleType 1) }, none) ∧
    ∃ ft, (some (sampleType 1) : Option FieldType) = some ft ∧
      (ft.hasNotNull = true ↔
        ∃ a b c, [colExpr 1, constExpr 2, colExpr 1] = [a, b, c] ∧
          ((sampleCollab ["lead"] (sampleType 0)).GetType a
            ((sampleCollab ["lead"] (sampleType 0)).GetEvalCtx ())).hasNotNull = true ∧
          ((sampleCollab ["lead"] (sampleType 0)).GetType c
            ((sampleCollab ["lead"] (sampleType 0)).GetEvalCtx ())).hasNotNull = true) :=
  ⟨by decide,
   lead_lag_not_null_iff asciiLower (sampleCollab ["lead"] (sampleType 0)) ()
     "lead" [colExpr 1, constExpr 2, colExpr 1] false
     { Name := "lead", Args := [colExpr 1, constExpr 2, colExpr 1],
       RetTp := some (sampleType 1) } none
     (Or.inl rfl) (by decide)⟩

/-- C8 as stated fails: two calls with the name lead whose first and third
arguments carry the same not-null flags, one with three and one with four
arguments, return descriptors with different not-null flags, so the flag is not
a function of the name and of those two flags only. -/
theorem flag_depends_on_arity :
    NewWindowFuncDesc asciiLower (sampleCollab ["lead"] (sampleType 0)) ()
      "lead" [colExpr 1, constExpr 1, colExpr 1] true =
      Outcome.ret (some { Name := "lead", Args := [colExpr 1, constExpr 1, colExpr 1],
                          RetTp := some (sampleType 1) }, none) ∧
    NewWindowFuncDesc asciiLower (sampleCollab ["lead"] (sampleType 0)) ()
      "lead" [colExpr 1, constExpr 1, colExpr 1, colExpr 1] true =
      Outcome.ret (some { Name := "lead",
                          Args := [colExpr 1, constExpr 1, colExpr 1, colExpr 1],
                          RetTp := some (sampleType 0) }, none) ∧
    (sampleType 1).hasNotNull = true ∧ (sampleType 0).hasNotNull = false ∧
    ([colExpr 1, constExpr 1, colExpr 1][0]?.map
        (fun a => ((sampleCollab ["lead"] (sampleType 0)).GetType a ()).hasNotNull) =
      [colExpr 1, constExpr 1, colExpr 1, colExpr 1][0]?.map
        (fun a => ((sampleCollab ["lead"] (sampleType 0)).GetType a ()).hasNotNull)) ∧
    ([colExpr 1, constExpr 1, colExpr 1][2]?.map
        (fun a => ((sampleCollab ["lead"] (sampleType 0)).GetType a ()).hasNotNull) =
      [colExpr 1, constExpr 1, colExpr 1, colExpr 1][2]?.map
        (fun a => ((sampleCollab ["lead"] (sampleType 0)).GetType a ()).hasNotNull)) := by
  decide

/-- C8, amended: for a name that is neither one of the ten rank, count and
bitwise functions nor lead or lag, a returned descriptor has a return type with
the not-null flag cleared, whatever the arguments and whatever base
construction inferred; and for every name the returned flag is a function of
the name, of the number of arguments and of the not-null flags of the first and
third argument: two calls that agree on these return the same flag. -/
theorem other_names_nullable (lower₁ lower₂ : Char → Char)
    (E₁ E₂ : Collab BuildContext EvalContext Expression Err) (ctx₁ ctx₂ : BuildContext)
    (name : String) (args₁ args₂ : List Expression) (skip₁ skip₂ : Bool)
    (d₁ d₂ : WindowFuncDesc Expression) (err₁ err₂ : Option Err)
    (h₁ : NewWindowFuncDesc lower₁ E₁ ctx₁ name args₁ skip₁ = Outcome.ret (some d₁, err₁))
    (h₂ : NewWindowFuncDesc lower₂ E₂ ctx₂ name args₂ skip₂ = Outcome.ret (some d₂, err₂)) :
    ((name ∉ ["row_number", "rank", "dense_rank", "cume_dist", "percent_rank",
        "count", "approx_count_distinct", "bit_and", "bit_or", "bit_xor"] ∧
      name ≠ "lead" ∧ name ≠ "lag") →
      ∃ ft, d₁.RetTp = some ft ∧ ft.hasNotNull = false) ∧
    (args₁.length = args₂.length →
      args₁[0]?.map (fun a => (E₁.GetType a (E₁.GetEvalCtx ctx₁)).hasNotNull) =
        args₂[0]?.map (fun a => (E₂.GetType a (E₂.GetEvalCtx ctx₂)).hasNotNull) →
      args₁[2]?.map (fun a => (E₁.GetType a (E₁.GetEvalCtx ctx₁)).hasNotNull) =
        args₂[2]?.map (fun a => (E₂.GetType a (E₂.GetEvalCtx ctx₂)).hasNotNull) →
      d₁.RetTp.map FieldType.hasNotNull = d₂.RetTp.map FieldType.hasNotNull) := by
  obtain ⟨ft₁, hft₁, hnn₁⟩ := ret_flag lower₁ E₁ ctx₁ name args₁ skip₁ d₁ err₁ h₁
  obtain ⟨ft₂, hft₂, hnn₂⟩ := ret_flag lower₂ E₂ ctx₂ name args₂ skip₂ d₂ err₂ h₂
  refine ⟨?_, ?_⟩
  · rintro ⟨hn1, hn2, hn3⟩
    have hres := (ret_desc_inv lower₁ E₁ ctx₁ name args₁ skip₁ d₁ err₁ h₁).2
    rw [resolveNullability_default E₁ ctx₁ name args₁ _ hn1 hn2 hn3] at hres
    exact delNotNull_ret _ _ hres
  · intro hlen h0 h2
    rw [hft₁, hft₂, Option.map_some', Option.map_some', hnn₁, hnn₂, hlen, h0, h2]

/-- Witness of C8 on sample collaborators: sum over a not-null column, with a
not-null type inferred by base construction, comes back nullable. -/
theorem other_names_nullable_witness :
    NewWindowFuncDesc asciiLower (sampleCollab ["sum"] (sampleType 1)) ()
      "sum" [colExpr 1] false =
      Outcome.ret (some { Name := "sum", Args := [colExpr 1], RetTp := some (sampleType 0) },
        none) ∧
    ∃ ft, (some (sampleType 0) : Option FieldType) = some ft ∧ ft.hasNotNull = false :=
  ⟨by decide,
   (other_names_nullable asciiLower asciiLower (sampleCollab ["sum"] (sampleType 1))
     (sampleCollab ["sum"] (sampleType 1)) () () "sum" [colExpr 1] [colExpr 1] false false
     { Name := "sum", Args := [colExpr 1], RetTp := some (sampleType 0) }
     { Name := "sum", Args := [colExpr 1], RetTp := some (sampleType 0) } none none
     (by decide) (by decide)).1 (by decide)⟩

end Nullability

/-! ## Push-down and frame policy -/

/-- C9: CanPushDownToTiFlash is true exactly when the argument checker accepts
the argument list for TiFlash and the name of the descriptor is one of the
twelve allow-listed names; so it is false when the arguments are rejected,
false for every name outside the list (ntile, nth_value, cume_dist,
percent_rank, bit_and among them), and true for sum with accepted arguments. -/
theorem canPushDownToTiFlash_iff {PushDownContext Expression : Type}
    (CanExprsPushDown : PushDownContext → List Expression → StoreType → Bool)
    (s : WindowFuncDesc Expression) (ctx : PushDownContext) :
    (CanPushDownToTiFlash CanExprsPushDown s ctx = true ↔
      (CanExprsPushDown ctx s.Args StoreType.TiFlash = true ∧
        s.Name ∈ ["row_number", "rank", "dense_rank", "lead", "lag", "first_value",
          "last_value", "sum", "count", "avg", "max", "min"])) ∧
    (CanExprsPushDown ctx s.Args StoreType.TiFlash = false →
      CanPushDownToTiFlash CanExprsPushDown s ctx = false) ∧
    (s.Name ∉ ["row_number", "rank", "dense_rank", "lead", "lag", "first_value",
          "last_value", "sum", "count", "avg", "max", "min"] →
      CanPushDownToTiFlash CanExprsPushDown s ctx = false) ∧
    (s.Name ∈ ["ntile", "nth_value", "cume_dist", "percent_rank", "bit_and"] →
      CanPushDownToTiFlash CanExprsPushDown s ctx = false) ∧
    (s.Name = "sum" → CanExprsPushDown ctx s.Args StoreType.TiFlash = true →
      CanPushDownToTiFlash CanExprsPushDown s ctx = true) := by
  have hiff : CanPushDownToTiFlash CanExprsPushDown s ctx = true ↔
      (CanExprsPushDown ctx s.Args StoreType.TiFlash = true ∧
        s.Name ∈ ["row_number", "rank", "dense_rank", "lead", "lag", "first_value",
          "last_value", "sum", "count", "avg", "max", "min"]) := by
    unfold CanPushDownToTiFlash
    cases hc : CanExprsPushDown ctx s.Args StoreType.TiFlash
    · simp
    · simp only [Bool.not_true, Bool.false_eq_true, if_false, true_and]
      simp only [WindowFuncRowNumber, WindowFuncRank, WindowFuncDenseRank, WindowFuncLead,
        WindowFuncLag, WindowFuncFirstValue, WindowFuncLastValue, AggFuncSum, AggFuncCount,
        AggFuncAvg, AggFuncMax, AggFuncMin, List.mem_cons, List.mem_singleton,
        List.mem_nil_iff, or_false]
      split
      · rename_i h; simp only [true_iff]; tauto
      · split
        · rename_i h; simp only [true_iff]; tauto
        · rename_i h1 h2; simp only [Bool.false_eq_true, false_iff]; tauto
  refine ⟨hiff, ?_, ?_, ?_, ?_⟩
  · intro hc
    rw [← Bool.not_eq_true, hiff]
    simp [hc]
  · intro hn
    rw [← Bool.not_eq_true, hiff]
    exact fun h => hn h.2
  · intro hn
    rw [← Bool.not_eq_true, hiff]
    rintro ⟨-, hmem⟩
    simp only [List.mem_cons, List.mem_singleton, List.mem_nil_iff, or_false] at hn hmem
    rcases hn with h | h | h | h | h <;> rw [h] at hmem <;> revert hmem <;> decide
  · intro hn hc
    rw [hiff]
    exact ⟨hc, by rw [hn]; decide⟩

/-- C10: NeedFrame(name) is false exactly when the lowercase form of name is one
of the eight no-frame functions and true otherwise, so first_value, last_value,
nth_value and the aggregates need a frame; and, the rune map of strings.ToLower
being idempotent, NeedFrame(name) = NeedFrame(strings.ToLower(name)). -/
theorem needFrame_iff (lower : Char → Char) (name : String)
    (hidem : ∀ c, lower (lower c) = lower c) :
    (NeedFrame lower name = false ↔
      ToLower lower name ∈ ["cume_dist", "dense_rank", "lag", "lead", "ntile",
        "percent_rank", "rank", "row_number"]) ∧
    (NeedFrame lower name = true ↔
      ToLower lower name ∉ ["cume_dist", "dense_rank", "lag", "lead", "ntile",
        "percent_rank", "rank", "row_number"]) ∧
    (ToLower lower name ∈ ["first_value", "last_value", "nth_value", "sum", "count", "avg",
        "max", "min", "bit_and", "bit_or", "bit_xor", "approx_count_distinct"] →
      NeedFrame lower name = true) ∧
    NeedFrame lower name = NeedFrame lower (ToLower lower name) := by
  have hfalse : NeedFrame lower name = false ↔
      ToLower lower name ∈ ["cume_dist", "dense_rank", "lag", "lead", "ntile",
        "percent_rank", "rank", "row_number"] := by
    show (!decide (ToLower lower name ∈ noFrameWindowFuncs)) = false ↔
      ToLower lower name ∈ noFrameWindowFuncs
    simp
  have htrue : NeedFrame lower name = true ↔
      ToLower lower name ∉ ["cume_dist", "dense_rank", "lag", "lead", "ntile",
        "percent_rank", "rank", "row_number"] := by
    rw [← hfalse]; simp
  refine ⟨hfalse, htrue, ?_, ?_⟩
  · intro hmem
    rw [htrue]
    intro hno
    simp only [List.mem_cons, List.mem_singleton, List.mem_nil_iff, or_false] at hmem hno
    rcases hmem with h | h | h | h | h | h | h | h | h | h | h | h <;>
      rw [h] at hno <;> revert hno <;> decide
  · simp only [NeedFrame, ToLower_idem lower hidem]

/-- Witness of C10 with the ASCII rune map: RANK needs no frame, FIRST_VALUE
needs one. -/
theorem needFrame_iff_witness :
    NeedFrame asciiLower "RANK" = false ∧ NeedFrame asciiLower "FIRST_VALUE" = true ∧
    NeedFrame asciiLower "Rank" = NeedFrame asciiLower (ToLower asciiLower "Rank") :=
  ⟨(needFrame_iff asciiLower "RANK" asciiLower_idem).1.mpr (by decide),
   (needFrame_iff asciiLower "FIRST_VALUE" asciiLower_idem).2.2.1 (by decide),
   (needFrame_iff asciiLower "Rank" asciiLower_idem).2.2.2⟩

/-! ## Default frames -/

/-- C11: UseDefaultFrame(name) is (true, rows between current row and current
row) when the lowercase form of name is row_number, and (false, the zero-valued
FrameClause) for every other name; and, the rune map of strings.ToLower being
idempotent, the answer for name is the answer for strings.ToLower(name). -/
theorem useDefaultFrame_eq (lower : Char → Char) (name : String)
    (hidem : ∀ c, lower (lower c) = lower c) :
    (ToLower lower name = "row_number" →
      UseDefaultFrame lower name =
        (true, { Tp := FrameType.Rows,
                 Extent := { Start := { Tp := BoundType.CurrentRow, UnBounded := false,
                                        Expr := none, Unit := 0 },
                             End := { Tp := BoundType.CurrentRow, UnBounded := false,
                                      Expr := none, Unit := 0 } } })) ∧
    (ToLower lower name ≠ "row_number" →
      UseDefaultFrame lower name = (false, FrameClause.zero)) ∧
    ((UseDefaultFrame lower name).1 = true ↔ ToLower lower name = "row_number") ∧
    UseDefaultFrame lower name = UseDefaultFrame lower (ToLower lower name) := by
  have h1 : ToLower lower name = "row_number" →
      UseDefaultFrame lower name =
        (true, { Tp := FrameType.Rows,
                 Extent := { Start := { Tp := BoundType.CurrentRow, UnBounded := false,
                                        Expr := none, Unit := 0 },
                             End := { Tp := BoundType.CurrentRow, UnBounded := false,
                                      Expr := none, Unit := 0 } } }) := by
    intro h
    simp only [UseDefaultFrame, h]
    rfl
  have h2 : ToLower lower name ≠ "row_number" →
      UseDefaultFrame lower name = (false, FrameClause.zero) := by
    intro h
    have hb : (ToLower lower name == WindowFuncRowNumber) = false := by
      simpa [WindowFuncRowNumber] using h
    simp [UseDefaultFrame, useDefaultFrameWindowFuncs, List.lookup, hb]
  refine ⟨h1, h2, ?_, ?_⟩
  · by_cases h : ToLower lower name = "row_number"
    · simp [h1 h, h]
    · simp [h2 h, h]
  · simp only [UseDefaultFrame, ToLower_idem lower hidem]

/-- Witness of C11 with the ASCII rune map: Row_Number has the default frame,
rank has none. -/
theorem useDefaultFrame_eq_witness :
    (UseDefaultFrame asciiLower "Row_Number").1 = true ∧
    UseDefaultFrame asciiLower "rank" = (false, FrameClause.zero) ∧
    UseDefaultFrame asciiLower "Row_Number" =
      UseDefaultFrame asciiLower (ToLower asciiLower "Row_Number") :=
  ⟨(useDefaultFrame_eq asciiLower "Row_Number" asciiLower_idem).2.2.1.mpr (by decide),
   (useDefaultFrame_eq asciiLower "rank" asciiLower_idem).2.1 (by decide),
   (useDefaultFrame_eq asciiLower "Row_Number" asciiLower_idem).2.2.2⟩

/-- C18: whenever UseDefaultFrame(name) reports true, NeedFrame(name) is false;
the converse fails: a name whose lowercase form is rank needs no frame and has
no default frame. -/
theorem default_frame_needs_no_frame (lower : Char → Char) (name : String) :
    ((UseDefaultFrame lower name).1 = true → NeedFrame lower name = false) ∧
    (ToLower lower name = "rank" →
      NeedFrame lower name = false ∧ (UseDefaultFrame lower name).1 = false) ∧
    (NeedFrame asciiLower "rank" = false ∧ (UseDefaultFrame asciiLower "rank").1 = false) := by
  refine ⟨?_, ?_, by decide⟩
  · intro h
    by_cases hn : ToLower lower name = WindowFuncRowNumber
    · simp only [NeedFrame, hn]
      decide
    · have hb : (ToLower lower name == WindowFuncRowNumber) = false := by simpa using hn
      simp [UseDefaultFrame, useDefaultFrameWindowFuncs, List.lookup, hb] at h
  · intro hn
    simp only [NeedFrame, UseDefaultFrame, hn]
    decide

/-! ## Conversion to the wire expression -/

section Wire

variable {EvalContext Client Expression F : Type}

/-- C12: WindowFuncToPBExpr returns nil exactly when the client reports the type
tag of the descriptor unsupported for the select request class, or the
converter yields nil for at least one argument; a returned node is never a
partial tree, it has one child for every argument and every argument was
convertible; and with an unsupported tag the result is nil whatever the
arguments are. -/
theorem windowFuncToPBExpr_nil_iff (P : PBCollab EvalContext Client Expression F)
    (sctx : EvalContext) (client : Client) (desc : WindowFuncDesc Expression) :
    (WindowFuncToPBExpr P sctx client desc = Outcome.ret none ↔
      (P.IsRequestTypeSupported client ReqTypeSelect
          (P.GetTiPBExpr desc.tobaseFuncDesc true) = false ∨
        ∃ a ∈ desc.Args, P.ExprToPB client sctx a = none)) ∧
    (∀ node, WindowFuncToPBExpr P sctx client desc = Outcome.ret (some node) →
      node.Children.length = desc.Args.length ∧
      ∀ a ∈ desc.Args, P.ExprToPB client sctx a ≠ none) ∧
    (P.IsRequestTypeSupported client ReqTypeSelect
        (P.GetTiPBExpr desc.tobaseFuncDesc true) = false →
      WindowFuncToPBExpr P sctx client desc = Outcome.ret none) := by
  have hunsup : P.IsRequestTypeSupported client ReqTypeSelect
        (P.GetTiPBExpr desc.tobaseFuncDesc true) = false →
      WindowFuncToPBExpr P sctx client desc = Outcome.ret none := by
    intro h
    simp [WindowFuncToPBExpr, h]
  refine ⟨?_, ?_, hunsup⟩
  · constructor
    · intro h
      by_cases hs : P.IsRequestTypeSupported client ReqTypeSelect
          (P.GetTiPBExpr desc.tobaseFuncDesc true) = false
      · exact Or.inl hs
      · right
        rw [← convertArgs_eq_none_iff (P.ExprToPB client sctx) desc.Args []]
        simp only [Bool.not_eq_false] at hs
        unfold WindowFuncToPBExpr at h
        simp only [hs, Bool.not_true, Bool.false_eq_true, if_false] at h
        cases hc : convertArgs (P.ExprToPB client sctx) desc.Args [] with
        | none => rfl
        | some children =>
          rw [hc] at h
          cases hf : P.ToPBFieldType desc.RetTp with
          | panic p => rw [hf] at h; cases h
          | ret ft => rw [hf] at h; cases h
    · rintro (h | h)
      · exact hunsup h
      · have hc := (convertArgs_eq_none_iff (P.ExprToPB client sctx) desc.Args []).mpr h
        unfold WindowFuncToPBExpr
        simp only [hc]
        split <;> rfl
  · intro node h
    obtain ⟨-, children, ft, hc, -, hnode⟩ := toPB_some_inv P sctx client desc node h
    obtain ⟨cs, hr, hmap⟩ := convertArgs_eq_some _ _ _ _ hc
    refine ⟨?_, ?_⟩
    · have hlen := congrArg List.length hmap
      simp only [List.length_map] at hlen
      simp [hnode, tipb.Expr.Children, hr, hlen]
    · intro a ha hnone
      have := (convertArgs_eq_none_iff (P.ExprToPB client sctx) desc.Args []).mpr ⟨a, ha, hnone⟩
      rw [this] at hc
      cases hc

/-- C13: a node returned by WindowFuncToPBExpr carries the type tag of the
descriptor, the field type converted from its return type, and as children the
conversions of the arguments in order: as many children as arguments, the i-th
child being the conversion of the i-th argument; with an empty argument list,
a supported tag and a convertible return type the call succeeds with an empty
children list. -/
theorem windowFuncToPBExpr_node (P : PBCollab EvalContext Client Expression F)
    (sctx : EvalContext) (client : Client) (desc : WindowFuncDesc Expression)
    (node : tipb.Expr F)
    (h : WindowFuncToPBExpr P sctx client desc = Outcome.ret (some node)) :
    node.Tp = P.GetTiPBExpr desc.tobaseFuncDesc true ∧
    P.ToPBFieldType desc.RetTp = Outcome.ret node.FieldType ∧
    node.Children.length = desc.Args.length ∧
    desc.Args.map (P.ExprToPB client sctx) = node.Children.map some ∧
    (∀ i, i < desc.Args.length →
      (desc.Args[i]?).bind (P.ExprToPB client sctx) = node.Children[i]? ∧
      (node.Children[i]?).isSome = true) ∧
    (desc.Args = [] → node.Children = []) ∧
    (∀ (d : WindowFuncDesc Expression) (ft : F), d.Args = [] →
      P.IsRequestTypeSupported client ReqTypeSelect
        (P.GetTiPBExpr d.tobaseFuncDesc true) = true →
      P.ToPBFieldType d.RetTp = Outcome.ret ft →
      WindowFuncToPBExpr P sctx client d =
        Outcome.ret (some (tipb.Expr.mk (P.GetTiPBExpr d.tobaseFuncDesc true) [] ft))) := by
  obtain ⟨-, children, ft, hc, hf, hnode⟩ := toPB_some_inv P sctx client desc node h
  obtain ⟨cs, hr, hmap⟩ := convertArgs_eq_some _ _ _ _ hc
  simp only [List.nil_append] at hr
  subst hr hnode
  have hlen : children.length = desc.Args.length := by
    have := congrArg List.length hmap
    simpa using this.symm
  refine ⟨rfl, hf, hlen, hmap, ?_, ?_, ?_⟩
  · intro i hi
    have hget : (desc.Args.map (P.ExprToPB client sctx))[i]? = (children.map some)[i]? := by
      rw [hmap]
    simp only [List.getElem?_map] at hget
    have hi2 : i < children.length := by omega
    refine ⟨?_, ?_⟩
    · simp only [tipb.Expr.Children]
      rw [List.getElem?_eq_getElem hi] at hget ⊢
      rw [List.getElem?_eq_getElem hi2] at hget ⊢
      simpa using hget
    · simp [tipb.Expr.Children, List.getElem?_eq_getElem hi2]
  · intro hnil
    simp only [tipb.Expr.Children]
    rw [hnil] at hlen
    exact List.length_eq_zero.mp hlen
  · intro d ft1 hnil hsup hft
    simp [WindowFuncToPBExpr, hsup, hnil, convertArgs, hft]

/-- Witness of C13 on sample collaborators: sum over a constant and a column,
both convertible, gives a node with the tag, the field type and the two
conversions in order. -/
theorem windowFuncToPBExpr_node_witness :
    WindowFuncToPBExpr (samplePB true (fun _ => true)) () ()
      { Name := "sum", Args := [constExpr 7, colExpr 1], RetTp := some (sampleType 0) } =
      Outcome.ret (some (tipb.Expr.mk 3002
        [tipb.Expr.mk 7 [] 0, tipb.Expr.mk 0 [] 0] 8)) ∧
    (tipb.Expr.mk 3002 [tipb.Expr.mk 7 [] 0, tipb.Expr.mk 0 [] 0] 8 : tipb.Expr Nat).Children.length
      = [constExpr 7, colExpr 1].length :=
  ⟨rfl,
   (windowFuncToPBExpr_node (samplePB true (fun _ => true)) () ()
      { Name := "sum", Args := [constExpr 7, colExpr 1], RetTp := some (sampleType 0) }
      (tipb.Expr.mk 3002 [tipb.Expr.mk 7 [] 0, tipb.Expr.mk 0 [] 0] 8) rfl).2.2.1⟩

end Wire

/-! ## Clone -/

/-- C14: for a descriptor whose return type is allocated in the store, Clone
returns a descriptor with the same name, the same arguments and an equal return
type, held in a cell of its own; the store of the original is left as it was,
and setting or clearing a flag on the return type of the clone afterwards
changes the return type of the clone only: the return type of the original and
every other cell of the original store keep their values. -/
theorem clone_independent {Expression : Type} (h : Heap) (s : DescRef Expression)
    (p : Nat) (ft : FieldType) (hp : s.RetTp = some p) (hft : h.read p = some ft) :
    (Clone h s).2.Name = s.Name ∧ (Clone h s).2.Args = s.Args ∧
    (Clone h s).2.RetTp.bind (Clone h s).1.read = some ft ∧
    (Clone h s).2.RetTp ≠ s.RetTp ∧
    (∀ q, q < h.cells.length → (Clone h s).1.read q = h.read q) ∧
    (∀ flag,
      (setFlagOf (Clone h s).1 (Clone h s).2 flag).read p = some ft ∧
      (delFlagOf (Clone h s).1 (Clone h s).2 flag).read p = some ft ∧
      (Clone h s).2.RetTp.bind (setFlagOf (Clone h s).1 (Clone h s).2 flag).read =
        some (ft.SetFlag flag) ∧
      (Clone h s).2.RetTp.bind (delFlagOf (Clone h s).1 (Clone h s).2 flag).read =
        some (ft.DelFlag flag) ∧
      ∀ q, q < h.cells.length →
        (setFlagOf (Clone h s).1 (Clone h s).2 flag).read q = h.read q ∧
        (delFlagOf (Clone h s).1 (Clone h s).2 flag).read q = h.read q) := by
  have hlt : p < h.cells.length := by
    have := hft
    simp only [Heap.read] at this
    exact (List.getElem?_eq_some.mp this).1
  have hnew : (Heap.mk (h.cells ++ [ft])).read h.cells.length = some ft := by
    simp [Heap.read]
  have hset : ∀ flag, setFlagOf (Heap.mk (h.cells ++ [ft]))
      ({ Name := s.Name, Args := s.Args, RetTp := some h.cells.length } : DescRef Expression)
      flag = Heap.write { cells := h.cells ++ [ft] } h.cells.length (ft.SetFlag flag) := by
    intro flag
    simp only [setFlagOf, hnew]
  have hdel : ∀ flag, delFlagOf (Heap.mk (h.cells ++ [ft]))
      ({ Name := s.Name, Args := s.Args, RetTp := some h.cells.length } : DescRef Expression)
      flag = Heap.write { cells := h.cells ++ [ft] } h.cells.length (ft.DelFlag flag) := by
    intro flag
    simp only [delFlagOf, hnew]
  rw [Clone_eq h s p ft hp hft]
  refine ⟨rfl, rfl, ?_, ?_, ?_, ?_⟩
  · simpa using hnew
  · rw [hp]
    simp only [ne_eq, Option.some.injEq]
    omega
  · intro q hq
    simp [Heap.read, List.getElem?_append_left hq]
  · intro flag
    simp only [hset, hdel]
    refine ⟨?_, ?_, ?_, ?_, ?_⟩
    · rw [read_write_fresh h ft _ p hlt, hft]
    · rw [read_write_fresh h ft _ p hlt, hft]
    · simp [Heap.write, Heap.read]
    · simp [Heap.write, Heap.read]
    · intro q hq
      exact ⟨read_write_fresh h ft _ q hq, read_write_fresh h ft _ q hq⟩

/-- Witness of C14: the clone of a descriptor whose return type sits in cell 0
points to cell 1, and setting the not-null flag on the clone leaves cell 0
nullable. -/
theorem clone_independent_witness :
    (Clone (Heap.mk [sampleType 0])
      ({ Name := "sum", Args := [colExpr 0], RetTp := some 0 } : DescRef SampleExpr)).2.RetTp
      = some 1 ∧
    (setFlagOf
      (Clone (Heap.mk [sampleType 0])
        ({ Name := "sum", Args := [colExpr 0], RetTp := some 0 } : DescRef SampleExpr)).1
      (Clone (Heap.mk [sampleType 0])
        ({ Name := "sum", Args := [colExpr 0], RetTp := some 0 } : DescRef SampleExpr)).2
      NotNullFlag).read 0 = some (sampleType 0) :=
  ⟨by decide,
   ((clone_independent (Heap.mk [sampleType 0])
      ({ Name := "sum", Args := [colExpr 0], RetTp := some 0 } : DescRef SampleExpr)
      0 (sampleType 0) rfl rfl).2.2.2.2.2 NotNullFlag).1⟩

/-! ## Order of the steps of NewWindowFuncDesc -/

section Order

variable {BuildContext EvalContext Expression Err : Type}

/-- C15, evaluated where the code departs from it: the nullability switch
compares name itself, not its lowercase form.  On sample collaborators whose
base construction accepts either spelling, row_number returns a not-null type
and ROW_NUMBER a nullable one; lead over three arguments with a not-null first
and third returns a not-null type and LEAD a nullable one. -/
theorem nullability_case_sensitive :
    ToLower asciiLower "ROW_NUMBER" = "row_number" ∧
    NewWindowFuncDesc asciiLower (sampleCollab ["row_number"] (sampleType 0)) ()
      "row_number" [] false =
      Outcome.ret (some { Name := "row_number", Args := [], RetTp := some (sampleType 1) },
        none) ∧
    NewWindowFuncDesc asciiLower (sampleCollab ["row_number"] (sampleType 0)) ()
      "ROW_NUMBER" [] false =
      Outcome.ret (some { Name := "row_number", Args := [], RetTp := some (sampleType 0) },
        none) ∧
    NewWindowFuncDesc asciiLower (sampleCollab ["lead"] (sampleType 0)) ()
      "lead" [colExpr 1, constExpr 1, colExpr 1] false =
      Outcome.ret (some { Name := "lead", Args := [colExpr 1, constExpr 1, colExpr 1],
                          RetTp := some (sampleType 1) }, none) ∧
    NewWindowFuncDesc asciiLower (sampleCollab ["lead"] (sampleType 0)) ()
      "LEAD" [colExpr 1, constExpr 1, colExpr 1] false =
      Outcome.ret (some { Name := "lead", Args := [colExpr 1, constExpr 1, colExpr 1],
                          RetTp := some (sampleType 0) }, none) ∧
    (sampleType 1).hasNotNull = true ∧ (sampleType 0).hasNotNull = false := by
  decide

/-- C16: when a legality rule fails (nth_value or ntile with an unresolved or
non-null zero constant, lead or lag with an unresolved or null offset) and the
checks are not skipped, the call returns (nil, nil) whatever base construction
would do, error included: the outcome is the same for every replacement of
newBaseFuncDesc; and an error is returned only by a call that skipped or passed
the checks, and it is the error of base construction. -/
theorem reject_before_construction (lower : Char → Char)
    (E : Collab BuildContext EvalContext Expression Err) (ctx : BuildContext)
    (name : String) (args : List Expression) :
    (((ToLower lower name = "nth_value" ∧ ∃ a, args[1]? = some a ∧
          ((E.GetUint64FromConstant (E.GetEvalCtx ctx) a).2.2 = false ∨
            ((E.GetUint64FromConstant (E.GetEvalCtx ctx) a).1 = 0 ∧
              (E.GetUint64FromConstant (E.GetEvalCtx ctx) a).2.1 = false))) ∨
       (ToLower lower name = "ntile" ∧ ∃ a, args[0]? = some a ∧
          ((E.GetUint64FromConstant (E.GetEvalCtx ctx) a).2.2 = false ∨
            ((E.GetUint64FromConstant (E.GetEvalCtx ctx) a).1 = 0 ∧
              (E.GetUint64FromConstant (E.GetEvalCtx ctx) a).2.1 = false))) ∨
       ((ToLower lower name = "lead" ∨ ToLower lower name = "lag") ∧
          ∃ a, args[1]? = some a ∧
          ((E.GetUint64FromConstant (E.GetEvalCtx ctx) a).2.2 = false ∨
            (E.GetUint64FromConstant (E.GetEvalCtx ctx) a).2.1 = true))) →
      ∀ nb : BuildContext → String → List Expression → baseFuncDesc Expression × Option Err,
        NewWindowFuncDesc lower { E with newBaseFuncDesc := nb } ctx name args false =
          Outcome.ret (none, none)) ∧
    (∀ skip d e, NewWindowFuncDesc lower E ctx name args skip = Outcome.ret (d, some e) →
      d = none ∧ (E.newBaseFuncDesc ctx name args).2 = some e ∧
      (skip = true ∨ checkArgs lower E ctx name args = Outcome.ret false)) ∧
    ((sampleCollab [] (sampleType 0)).newBaseFuncDesc () "ntile" [constExpr 0] =
        ({ Name := "ntile", Args := [constExpr 0], RetTp := none },
          some "unsupported agg function: ntile") ∧
      NewWindowFuncDesc asciiLower (sampleCollab [] (sampleType 0)) ()
        "ntile" [constExpr 0] false = Outcome.ret (none, none)) := by
  refine ⟨?_, fun skip d e h => ret_err_inv lower E ctx name args skip d e h, by decide⟩
  intro hrule nb
  have hchk : checkArgs lower E ctx name args = Outcome.ret true := by
    rcases hrule with ⟨hn, a, ha, hc⟩ | ⟨hn, a, ha, hc⟩ | ⟨hn, a, ha, hc⟩
    · rw [checkArgs_nth_value lower E ctx name args a hn ha]
      rcases hc with h | ⟨h1, h2⟩
      · simp [h]
      · simp [h1, h2]
    · rw [checkArgs_ntile lower E ctx name args a hn ha]
      rcases hc with h | ⟨h1, h2⟩
      · simp [h]
      · simp [h1, h2]
    · rw [checkArgs_lead_lag lower E ctx name args a hn ha]
      rcases hc with h | h
      · simp [h]
      · simp [h]
  exact of_check_true lower _ ctx name args
    ((checkArgs_newBase_irrelevant lower E ctx name args nb).trans hchk)

/-- C17: with at least two arguments for nth_value and at least one for ntile,
and any number of arguments for every other name, the legality switch returns
without an index out of range, the nullability switch never indexes out of
range, and so the call never panics on an index; with a number of arguments
other than three the nullability switch reads no argument: it does what it
does on the empty argument list. -/
theorem args_access_in_bounds (lower : Char → Char)
    (E : Collab BuildContext EvalContext Expression Err) (ctx : BuildContext)
    (name : String) (args : List Expression) (skip : Bool)
    (h1 : ToLower lower name = "nth_value" → 2 ≤ args.length)
    (h2 : ToLower lower name = "ntile" → 1 ≤ args.length) :
    (∃ b, checkArgs lower E ctx name args = Outcome.ret b) ∧
    (∀ base, resolveNullability E ctx name args base ≠
      Outcome.panic GoPanic.indexOutOfRange) ∧
    NewWindowFuncDesc lower E ctx name args skip ≠ Outcome.panic GoPanic.indexOutOfRange ∧
    (args.length ≠ 3 → ∀ base,
      resolveNullability E ctx name args base = resolveNullability E ctx name [] base) := by
  obtain ⟨b, hb⟩ := checkArgs_returns lower E ctx name args h1 h2
  refine ⟨⟨b, hb⟩, fun base => resolveNullability_in_bounds E ctx name args base, ?_, ?_⟩
  · have hskip : NewWindowFuncDesc lower E ctx name args true ≠
        Outcome.panic GoPanic.indexOutOfRange := by
      intro h
      unfold NewWindowFuncDesc at h
      simp only [if_true] at h
      cases hres : resolveNullability E ctx name args (E.newBaseFuncDesc ctx name args).1 with
      | panic p =>
        rw [hres] at h
        simp only [Outcome.panic.injEq] at h
        rw [h] at hres
        exact resolveNullability_in_bounds E ctx name args _ hres
      | ret base1 =>
        rw [hres] at h
        cases herr : (E.newBaseFuncDesc ctx name args).2 with
        | some e => rw [herr] at h; cases h
        | none => rw [herr] at h; cases h
    cases skip with
    | true => exact hskip
    | false =>
      cases b with
      | true => rw [of_check_true lower E ctx name args hb]; simp
      | false => rw [of_check_false lower E ctx name args hb]; exact hskip
  · intro hlen base
    by_cases hn : name ∈ notNullFuncs
    · rw [resolveNullability_notNullFuncs E ctx name args base hn,
        resolveNullability_notNullFuncs E ctx name [] base hn]
    · by_cases hl : name = WindowFuncLead ∨ name = WindowFuncLag
      · rw [resolveNullability_lead_lag_other E ctx name args base hl hlen,
          resolveNullability_lead_lag_other E ctx name [] base hl (by simp)]
      · have h3 : name ≠ WindowFuncLead := fun h => hl (Or.inl h)
        have h4 : name ≠ WindowFuncLag := fun h => hl (Or.inr h)
        rw [resolveNullability_default E ctx name args base hn h3 h4,
          resolveNullability_default E ctx name [] base hn h3 h4]

/-- Witness of C17 on sample collaborators: lead without arguments and
nth_value with two arguments do not panic on an index. -/
theorem args_access_in_bounds_witness :
    (∃ b, checkArgs asciiLower (sampleCollab ["lead"] (sampleType 0)) () "lead" [] =
      Outcome.ret b) ∧
    NewWindowFuncDesc asciiLower (sampleCollab ["nth_value"] (sampleType 0)) ()
      "nth_value" [colExpr 0, constExpr 2] false ≠ Outcome.panic GoPanic.indexOutOfRange :=
  ⟨(args_access_in_bounds asciiLower (sampleCollab ["lead"] (sampleType 0)) () "lead" []
      false (by decide) (by decide)).1,
   (args_access_in_bounds asciiLower (sampleCollab ["nth_value"] (sampleType 0)) ()
      "nth_value" [colExpr 0, constExpr 2] false (by decide) (by decide)).2.2.1⟩

/-- C19: on success the returned descriptor has the name and the argument
list of the base descriptor that generic construction produced, and its return
type is the inferred one except for the not-null flag: the type byte, the
length, the decimals, the charset and the collation are the same, the flag
words agree once the not-null bit is masked out, and so does each of the bits
1 to 63. -/
theorem nullability_keeps_rest (lower : Char → Char)
    (E : Collab BuildContext EvalContext Expression Err) (ctx : BuildContext)
    (name : String) (args : List Expression) (skip : Bool)
    (d : WindowFuncDesc Expression) (err : Option Err)
    (hret : NewWindowFuncDesc lower E ctx name args skip = Outcome.ret (some d, err)) :
    d.Name = (E.newBaseFuncDesc ctx name args).1.Name ∧
    d.Args = (E.newBaseFuncDesc ctx name args).1.Args ∧
    ∃ ft0 ft, (E.newBaseFuncDesc ctx name args).1.RetTp = some ft0 ∧ d.RetTp = some ft ∧
      ft.tp = ft0.tp ∧ ft.flen = ft0.flen ∧ ft.decimal = ft0.decimal ∧
      ft.charset = ft0.charset ∧ ft.collate = ft0.collate ∧
      ft.flag &&& (maxUint ^^^ NotNullFlag) = ft0.flag &&& (maxUint ^^^ NotNullFlag) ∧
      ∀ i, 0 < i → i < 64 → ft.flag.testBit i = ft0.flag.testBit i := by
  have hres := (ret_desc_inv lower E ctx name args skip d err hret).2
  obtain ⟨hn, ha, ft0, ft, h0, h1, htp, hflen, hdec, hcs, hcl, hflag⟩ :=
    resolveNullability_fields E ctx name args _ _ hres
  exact ⟨hn, ha, ft0, ft, h0, h1, htp, hflen, hdec, hcs, hcl, hflag,
    testBit_of_masked_eq _ _ hflag⟩

/-- Witness of C19 on sample collaborators: count keeps the binary flag (128)
of the inferred flag word 129, and sum, whose not-null bit is cleared, keeps it
too. -/
theorem nullability_keeps_rest_witness :
    NewWindowFuncDesc asciiLower (sampleCollab ["count"] (sampleType 129)) ()
      "count" [colExpr 0] false =
      Outcome.ret (some { Name := "count", Args := [colExpr 0],
                          RetTp := some (sampleType 129) }, none) ∧
    NewWindowFuncDesc asciiLower (sampleCollab ["sum"] (sampleType 129)) ()
      "sum" [colExpr 0] false =
      Outcome.ret (some { Name := "sum", Args := [colExpr 0],
                          RetTp := some (sampleType 128) }, none) ∧
    ∃ ft0 ft,
      ((sampleCollab ["count"] (sampleType 129)).newBaseFuncDesc () "count" [colExpr 0]).1.RetTp
        = some ft0 ∧
      (some (sampleType 129) : Option FieldType) = some ft ∧
      ft.flag &&& (maxUint ^^^ NotNullFlag) = ft0.flag &&& (maxUint ^^^ NotNullFlag) :=
  ⟨by decide, by decide,
   (nullability_keeps_rest asciiLower (sampleCollab ["count"] (sampleType 129)) ()
      "count" [colExpr 0] false
      { Name := "count", Args := [colExpr 0], RetTp := some (sampleType 129) } none
      (by decide)).2.2.elim
     (fun ft0 h => h.elim (fun ft h2 => ⟨ft0, ft, h2.1, h2.2.1, h2.2.2.2.2.2.2.2.1⟩))⟩

end Order

/-! ## The CPU-load mock -/

/-- C20: for n labels, MockCPULoad starts one goroutine with the single pair
(label, label + " value") for every label and then one with the combined list,
which has length 2n, the i-th label at index 2i and the hex encoding of
label + " value" at index 2i+1; MockCPULoadV2 does the same with the key
sql_global_uid at index 2i and the i-th value at index 2i+1; so every call of
the label constructor gets an even number of strings. -/
theorem mock_labels_paired (labels : List String) :
    (∃ lvs, MockCPULoad labels = labels.map (fun l => [l, l ++ " value"]) ++ [lvs] ∧
      lvs.length = 2 * labels.length ∧
      ∀ i, i < labels.length →
        lvs[2 * i]? = labels[i]? ∧
        lvs[2 * i + 1]? = labels[i]?.map (fun l => EncodeToString (l ++ " value"))) ∧
    (∃ lvs, MockCPULoadV2 labels = labels.map (fun v => ["sql_global_uid", v]) ++ [lvs] ∧
      lvs.length = 2 * labels.length ∧
      ∀ i, i < labels.length →
        lvs[2 * i]? = some "sql_global_uid" ∧ lvs[2 * i + 1]? = labels[i]?) ∧
    (∀ call ∈ MockCPULoad labels, call.length % 2 = 0) ∧
    (∀ call ∈ MockCPULoadV2 labels, call.length % 2 = 0) ∧
    EncodeToString "a value" = "612076616c7565" := by
  have hp1 := flatMap_pair (fun l : String => l) (fun l => EncodeToString (l ++ " value")) labels
  have hp2 := flatMap_pair (fun _ : String => "sql_global_uid") (fun v => v) labels
  refine ⟨⟨_, MockCPULoad_eq labels, hp1.1, ?_⟩, ⟨_, MockCPULoadV2_eq labels, hp2.1, ?_⟩,
    ?_, ?_, by decide⟩
  · intro i _
    have h := hp1.2 i
    simpa using h
  · intro i hi
    have h := hp2.2 i
    refine ⟨?_, by simpa using h.2⟩
    rw [h.1, List.getElem?_eq_getElem hi]
    rfl
  · intro call hcall
    rw [MockCPULoad_eq] at hcall
    simp only [List.mem_append, List.mem_map, List.mem_singleton] at hcall
    rcases hcall with ⟨l, -, rfl⟩ | rfl
    · simp
    · rw [hp1.1]; omega
  · intro call hcall
    rw [MockCPULoadV2_eq] at hcall
    simp only [List.mem_append, List.mem_map, List.mem_singleton] at hcall
    rcases hcall with ⟨l, -, rfl⟩ | rfl
    · simp
    · rw [hp2.1]; omega

end Aggregation
